import Mathlib

/-!
# CCCaster input-mapping engine (`lib/Controller.cpp`)

A shallow embedding of `Controller`: the keyboard handler, the three joystick
event handlers (axis, hat, button), `startMapping`, `cancelMapping`,
`clearMapping`, `getMapping`, the two constructors and the destructor with the
GUID registry, and `isOnlyGuid`; and of `trim` from `lib/Utilities.cpp`;
together with theorems about the live path, the remap-capture path, the table
invariants, the registry and `trim`.

Conventions of the embedding

* `uint32_t` masks are natural numbers; `|` and `&` are `|||` and `&&&`, and the
  32-bit complement `~x` is `not32 x`.
* `stick.mappings[e][i][v]` and `active.mappings[e][i][v]` are functions of the
  event type `e`, the control index `i` and the sub-value `v`.  The array bounds
  are declared in `Controller.h`, which is not part of the sources, so the
  tables are total functions on indices.
* `deadzones[axis]` is an unsigned threshold (its declaration is in
  `Controller.h` as well).
* `owner` is `none` for a null pointer.  Every handler returns the new
  controller together with the list of `owner->doneMapping ( this, key )`
  calls it made, each recorded as `(owner, key)`.
* `KeyboardManager::get().hook/unhook` and logging have no effect on the
  fields of the controller and are left out.
* `isKeyboard ()` and the constants `BIT_*`, `MASK_*` are declared in headers
  that are not part of the sources: they are parameters.
* The static `guidBitset` is a partial function from GUIDs to masks; the
  constructor and the destructor take the registry and return the new one.
  A GUID is a natural number, `0` for the 16 zero bytes.
* A `std::string` is a list of characters; `npos` is `none`.
-/

namespace CCCaster

/-! ## Constants -/

/-- Source constant `#define DEFAULT_DEADZONE 25000`. -/
def DEFAULT_DEADZONE : Nat := 25000

/-- Source constant `#define EVENT_JOY_AXIS 0`. -/
def EVENT_JOY_AXIS : Nat := 0
/-- Source constant `#define EVENT_JOY_HAT 1`. -/
def EVENT_JOY_HAT : Nat := 1
/-- Source constant `#define EVENT_JOY_BUTTON 2`. -/
def EVENT_JOY_BUTTON : Nat := 2

/-- Source constant `#define AXIS_CENTERED 0`. -/
def AXIS_CENTERED : Nat := 0
/-- Source constant `#define AXIS_POSITIVE 1`. -/
def AXIS_POSITIVE : Nat := 1
/-- Source constant `#define AXIS_NEGATIVE 2`. -/
def AXIS_NEGATIVE : Nat := 2

/-- SDL: `SDL_HAT_CENTERED 0x00`. -/
def SDL_HAT_CENTERED : Nat := 0
/-- SDL: `SDL_HAT_UP 0x01`. -/
def SDL_HAT_UP : Nat := 1
/-- SDL: `SDL_HAT_RIGHT 0x02`. -/
def SDL_HAT_RIGHT : Nat := 2
/-- SDL: `SDL_HAT_DOWN 0x04`. -/
def SDL_HAT_DOWN : Nat := 4
/-- SDL: `SDL_HAT_LEFT 0x08`. -/
def SDL_HAT_LEFT : Nat := 8

/-- SDL: `SDL_RELEASED 0`. -/
def SDL_RELEASED : Nat := 0
/-- SDL: `SDL_PRESSED 1`. -/
def SDL_PRESSED : Nat := 1

/-- Windows: `VK_ESCAPE 0x1B`. -/
def VK_ESCAPE : Nat := 27

/-! ## Data model -/

/-- The 32-bit complement `~x` of a `uint32_t`. -/
def not32 (x : Nat) : Nat := 2 ^ 32 - (x % 2 ^ 32 + 1)

/-- A three-level table `mappings[event type][index][value]` of masks. -/
abbrev Mappings := Nat → Nat → Nat → Nat

/-- The assignment `t[e][i][v] = x`. -/
def Mappings.set (t : Mappings) (e i v x : Nat) : Mappings :=
  fun e' i' v' => if e' = e ∧ i' = i ∧ v' = v then x else t e' i' v'

/-- The table with every entry `0`. -/
def Mappings.zero : Mappings := fun _ _ _ => 0

/-- An `owner->doneMapping ( this, key )` call: the owner and the key. -/
abbrev Call := Nat × Nat

/-- The fields of `Controller` that the handlers read and write. -/
structure Controller where
  /-- Field `state`: the live bitmask. -/
  state : Nat := 0
  /-- Field `keyToMap`: the target mask of the capture, `0` when none is active. -/
  keyToMap : Nat := 0
  /-- Field `owner`: who is notified when the capture is done. -/
  owner : Option Nat := none
  /-- Field `stick.mappings`. -/
  stick : Mappings := Mappings.zero
  /-- Field `active.mappings`: the armed values of the capture. -/
  active : Mappings := Mappings.zero
  /-- Field `deadzones`. -/
  deadzones : Nat → Nat := fun _ => DEFAULT_DEADZONE
  /-- Field `keybd.codes`. -/
  codes : Nat → Nat := fun _ => 0
  /-- Field `keybd.names`. -/
  names : Nat → String := fun _ => ""
  /-- Field `guid.guid`: the hardware identifier of the device. -/
  guid : Nat := 0
  /-- Field `guid.index`: the index of the device among those with its GUID. -/
  index : Nat := 0

/-- The calls made by `if ( owner ) owner->doneMapping ( this, key );`. -/
def notify (owner : Option Nat) (key : Nat) : List Call :=
  match owner with
  | some o => [(o, key)]
  | none => []

/-! ## `Controller::cancelMapping` -/

/-- Method `cancelMapping`: clears the owner, the target mask and every armed value. -/
def cancelMapping (c : Controller) : Controller :=
  { c with owner := none, keyToMap := 0, active := Mappings.zero }

/-! ## `Controller::joystickEvent ( const SDL_JoyAxisEvent& )` -/

/-- The local `value` of the axis handler: `0` inside the deadzone, else the
sign of the raw value. -/
def axisValue (deadzone : Nat) (raw : Int) : Nat :=
  if raw.natAbs > deadzone then (if raw > 0 then AXIS_POSITIVE else AXIS_NEGATIVE) else 0

/-- The local `activeValue` of the axis handler. -/
def axisActiveValue (c : Controller) (axis : Nat) : Nat :=
  if c.active EVENT_JOY_AXIS axis AXIS_POSITIVE ≠ 0 then AXIS_POSITIVE
  else if c.active EVENT_JOY_AXIS axis AXIS_NEGATIVE ≠ 0 then AXIS_NEGATIVE
  else 0

/-- The axis handler, `event.axis = axis` and `event.value = raw`. -/
def joystickAxisEvent (c : Controller) (axis : Nat) (raw : Int) : Controller × List Call :=
  let value := axisValue (c.deadzones axis) raw
  if c.keyToMap ≠ 0 then
    let activeValue := axisActiveValue c axis
    let r : Controller × List Call :=
      if value = 0 ∧ activeValue ≠ 0 then
        let s1 := c.stick.set EVENT_JOY_AXIS axis activeValue c.keyToMap
        let s2 := s1.set EVENT_JOY_AXIS axis AXIS_CENTERED
          (s1 EVENT_JOY_AXIS axis AXIS_POSITIVE ||| s1 EVENT_JOY_AXIS axis AXIS_NEGATIVE)
        let owner := c.owner
        let key := c.keyToMap
        (cancelMapping { c with stick := s2 }, notify owner key)
      else (c, [])
    if activeValue ≠ 0 then r
    else ({ r.1 with active := r.1.active.set EVENT_JOY_AXIS axis value r.1.keyToMap }, r.2)
  else
    let s := c.state &&& not32 (c.stick EVENT_JOY_AXIS axis AXIS_CENTERED)
    let s := if value ≠ AXIS_CENTERED then s ||| c.stick EVENT_JOY_AXIS axis value else s
    ({ c with state := s }, [])

/-! ## `Controller::joystickEvent ( const SDL_JoyHatEvent& )` -/

/-- The local `activeValue` of the hat handler: the first of up, right, down,
left whose armed value is not zero. -/
def hatActiveValue (c : Controller) (hat : Nat) : Nat :=
  if c.active EVENT_JOY_HAT hat SDL_HAT_UP ≠ 0 then SDL_HAT_UP
  else if c.active EVENT_JOY_HAT hat SDL_HAT_RIGHT ≠ 0 then SDL_HAT_RIGHT
  else if c.active EVENT_JOY_HAT hat SDL_HAT_DOWN ≠ 0 then SDL_HAT_DOWN
  else if c.active EVENT_JOY_HAT hat SDL_HAT_LEFT ≠ 0 then SDL_HAT_LEFT
  else 0

/-- The hat handler, `event.hat = hat` and `event.value = value`. -/
def joystickHatEvent (c : Controller) (hat value : Nat) : Controller × List Call :=
  if c.keyToMap ≠ 0 then
    let activeValue := hatActiveValue c hat
    let r : Controller × List Call :=
      if value = SDL_HAT_CENTERED ∧ activeValue ≠ 0 then
        let s1 := c.stick.set EVENT_JOY_HAT hat activeValue (c.active EVENT_JOY_HAT hat activeValue)
        let s2 := s1.set EVENT_JOY_HAT hat SDL_HAT_CENTERED 0
        let s3 := s2.set EVENT_JOY_HAT hat SDL_HAT_CENTERED
          (s2 EVENT_JOY_HAT hat SDL_HAT_CENTERED ||| s2 EVENT_JOY_HAT hat SDL_HAT_UP)
        let s4 := s3.set EVENT_JOY_HAT hat SDL_HAT_CENTERED
          (s3 EVENT_JOY_HAT hat SDL_HAT_CENTERED ||| s3 EVENT_JOY_HAT hat SDL_HAT_RIGHT)
        let s5 := s4.set EVENT_JOY_HAT hat SDL_HAT_CENTERED
          (s4 EVENT_JOY_HAT hat SDL_HAT_CENTERED ||| s4 EVENT_JOY_HAT hat SDL_HAT_DOWN)
        let s6 := s5.set EVENT_JOY_HAT hat SDL_HAT_CENTERED
          (s5 EVENT_JOY_HAT hat SDL_HAT_CENTERED ||| s5 EVENT_JOY_HAT hat SDL_HAT_LEFT)
        let owner := c.owner
        let key := c.keyToMap
        (cancelMapping { c with stick := s6 }, notify owner key)
      else (c, [])
    if activeValue ≠ 0 then r
    else ({ r.1 with active := r.1.active.set EVENT_JOY_HAT hat value r.1.keyToMap }, r.2)
  else
    let s := c.state &&& not32 (c.stick EVENT_JOY_HAT hat SDL_HAT_CENTERED)
    let s :=
      if value &&& SDL_HAT_UP ≠ 0 then s ||| c.stick EVENT_JOY_HAT hat SDL_HAT_UP
      else if value &&& SDL_HAT_DOWN ≠ 0 then s ||| c.stick EVENT_JOY_HAT hat SDL_HAT_DOWN
      else s
    let s :=
      if value &&& SDL_HAT_LEFT ≠ 0 then s ||| c.stick EVENT_JOY_HAT hat SDL_HAT_LEFT
      else if value &&& SDL_HAT_RIGHT ≠ 0 then s ||| c.stick EVENT_JOY_HAT hat SDL_HAT_RIGHT
      else s
    ({ c with state := s }, [])

/-! ## `Controller::joystickEvent ( const SDL_JoyButtonEvent& )` -/

/-- The button handler, `event.button = button` and `event.state = st`. -/
def joystickButtonEvent (c : Controller) (button st : Nat) : Controller × List Call :=
  if c.keyToMap ≠ 0 then
    let isActive : Bool := c.active EVENT_JOY_BUTTON button SDL_PRESSED != 0
    let r : Controller × List Call :=
      if st = SDL_RELEASED ∧ isActive = true then
        let s1 := c.stick.set EVENT_JOY_BUTTON button SDL_RELEASED c.keyToMap
        let s2 := s1.set EVENT_JOY_BUTTON button SDL_PRESSED c.keyToMap
        let owner := c.owner
        let key := c.keyToMap
        (cancelMapping { c with stick := s2 }, notify owner key)
      else (c, [])
    if isActive = true then r
    else ({ r.1 with active := r.1.active.set EVENT_JOY_BUTTON button st r.1.keyToMap }, r.2)
  else
    let key := c.stick EVENT_JOY_BUTTON button st
    if key = 0 then (c, [])
    else if st = SDL_RELEASED then ({ c with state := c.state &&& not32 key }, [])
    else if st = SDL_PRESSED then ({ c with state := c.state ||| key }, [])
    else (c, [])

/-! ## `Controller::keyboardEvent` -/

/-- The assignment `f[i] = x` on a keyboard array. -/
def setSlot {α : Type} (f : Nat → α) (i : Nat) (x : α) : Nat → α :=
  fun j => if j = i then x else f j

/-- The body of the loop of `keyboardEvent` for slot `i`; `name` is the value of
`getVKeyName ( vkCode, scanCode, isExtended )`. -/
def keyboardBindSlot (vkCode : Nat) (name : String) (c : Controller) (i : Nat) : Controller :=
  if c.keyToMap &&& (1 <<< i) ≠ 0 then
    { c with codes := setSlot c.codes i vkCode, names := setSlot c.names i name }
  else if c.codes i = vkCode then
    { c with codes := setSlot c.codes i 0, names := setSlot c.names i "" }
  else c

/-- The keyboard handler.  `getVKeyName` (a table from `KeyboardMappings.h` and
the system call `GetKeyNameText`) is a parameter. -/
def keyboardEvent (getVKeyName : Nat → Nat → Bool → String) (c : Controller)
    (vkCode scanCode : Nat) (isExtended isDown : Bool) : Controller × List Call :=
  if !isDown ∧ c.keyToMap ≠ 0 then (c, [])
  else
    let owner := c.owner
    let r : Controller × Nat :=
      if vkCode ≠ VK_ESCAPE then
        ((List.range 32).foldl
          (keyboardBindSlot vkCode (getVKeyName vkCode scanCode isExtended)) c, c.keyToMap)
      else (c, 0)
    (cancelMapping r.1, notify owner r.2)

/-! ## `Controller::clearMapping` -/

/-- The body of the first loop of `clearMapping` for slot `i`. -/
def clearSlot (keys : Nat) (c : Controller) (i : Nat) : Controller :=
  if keys &&& (1 <<< i) ≠ 0 then
    { c with codes := setSlot c.codes i 0, names := setSlot c.names i "" }
  else c

/-- Method `clearMapping ( keys )`: unbinds the keyboard slots of the bits of
`keys` and zeroes every joystick entry that intersects `keys`. -/
def clearMapping (c : Controller) (keys : Nat) : Controller :=
  let c1 := (List.range 32).foldl (clearSlot keys) c
  { c1 with stick := fun e i v => if c1.stick e i v &&& keys ≠ 0 then 0 else c1.stick e i v }

/-! ## `Controller::startMapping` -/

/-- Method `startMapping ( owner, key, window )`: cancels the capture in progress
and records the new owner and target mask. -/
def startMapping (c : Controller) (owner : Option Nat) (key : Nat) : Controller :=
  let c1 := cancelMapping c
  { c1 with owner := owner, keyToMap := key }

/-! ## Traces of joystick events -/

/-- A joystick event: the three argument types of `joystickEvent`. -/
inductive JoyEvent where
  /-- An `SDL_JoyAxisEvent` with its `axis` and `value`. -/
  | axis (axis : Nat) (raw : Int)
  /-- An `SDL_JoyHatEvent` with its `hat` and `value`. -/
  | hat (hat value : Nat)
  /-- An `SDL_JoyButtonEvent` with its `button` and `state`. -/
  | button (button st : Nat)

/-- The overloaded `joystickEvent`, by the type of the event. -/
def joystickEvent (c : Controller) : JoyEvent → Controller × List Call
  | JoyEvent.axis a raw => joystickAxisEvent c a raw
  | JoyEvent.hat h v => joystickHatEvent c h v
  | JoyEvent.button b st => joystickButtonEvent c b st

/-- The events of a list delivered in order; the calls are collected in the
order in which they are made. -/
def runEvents (c : Controller) : List JoyEvent → Controller × List Call
  | [] => (c, [])
  | e :: es =>
    let r := joystickEvent c e
    let rs := runEvents r.1 es
    (rs.1, r.2 ++ rs.2)

/-! ## `Controller::getMapping` -/

/-- Method `getMapping ( key )`.  The result of `isKeyboard ()`, which is declared
in `Controller.h`, is a parameter. -/
def getMapping (isKeyboard : Bool) (c : Controller) (key : Nat) : String :=
  if isKeyboard then
    match (List.range 32).find? (fun i => decide (key &&& (1 <<< i) ≠ 0 ∧ c.codes i ≠ 0)) with
    | some i => c.names i
    | none => ""
  else ""

/-! ## The GUID registry: constructor, destructor, `isOnlyGuid` -/

/-- The static `guidBitset`: the occupancy mask of each known GUID. -/
abbrev Registry := Nat → Option Nat

/-- The assignment `guidBitset[g] = mask`. -/
def Registry.set (reg : Registry) (g mask : Nat) : Registry :=
  fun g' => if g' = g then some mask else reg g'

/-- The constants `BIT_*` and `MASK_*` of the default mappings; they are declared
in a header that is not among the sources. -/
structure InputBits where
  /-- Constant `BIT_UP`. -/
  BIT_UP : Nat
  /-- Constant `BIT_DOWN`. -/
  BIT_DOWN : Nat
  /-- Constant `BIT_LEFT`. -/
  BIT_LEFT : Nat
  /-- Constant `BIT_RIGHT`. -/
  BIT_RIGHT : Nat
  /-- Constant `MASK_X_AXIS`. -/
  MASK_X_AXIS : Nat
  /-- Constant `MASK_Y_AXIS`. -/
  MASK_Y_AXIS : Nat

/-- Modelled from the spec: the default argument of `clearMapping`, declared in
`Controller.h`; the bare call `clearMapping ()` of the constructors clears every
mapping, so the default is the full 32-bit mask. -/
def CLEAR_ALL : Nat := 4294967295

/-- The default axis and hat mappings written at the end of the joystick
constructor, in the order of the source. -/
def defaultMappings (bits : InputBits) (t : Mappings) : Mappings :=
  let t := t.set EVENT_JOY_AXIS 0 0 bits.MASK_X_AXIS
  let t := t.set EVENT_JOY_AXIS 0 AXIS_POSITIVE bits.BIT_RIGHT
  let t := t.set EVENT_JOY_AXIS 0 AXIS_NEGATIVE bits.BIT_LEFT
  let t := t.set EVENT_JOY_AXIS 1 0 bits.MASK_Y_AXIS
  let t := t.set EVENT_JOY_AXIS 1 AXIS_POSITIVE bits.BIT_DOWN
  let t := t.set EVENT_JOY_AXIS 1 AXIS_NEGATIVE bits.BIT_UP
  let t := t.set EVENT_JOY_AXIS 2 0 bits.MASK_X_AXIS
  let t := t.set EVENT_JOY_AXIS 2 AXIS_POSITIVE bits.BIT_RIGHT
  let t := t.set EVENT_JOY_AXIS 2 AXIS_NEGATIVE bits.BIT_LEFT
  let t := t.set EVENT_JOY_AXIS 3 0 bits.MASK_Y_AXIS
  let t := t.set EVENT_JOY_AXIS 3 AXIS_POSITIVE bits.BIT_DOWN
  let t := t.set EVENT_JOY_AXIS 3 AXIS_NEGATIVE bits.BIT_UP
  let t := t.set EVENT_JOY_HAT 0 SDL_HAT_CENTERED (bits.MASK_X_AXIS ||| bits.MASK_Y_AXIS)
  let t := t.set EVENT_JOY_HAT 0 SDL_HAT_UP bits.BIT_UP
  let t := t.set EVENT_JOY_HAT 0 SDL_HAT_RIGHT bits.BIT_RIGHT
  let t := t.set EVENT_JOY_HAT 0 SDL_HAT_DOWN bits.BIT_DOWN
  let t := t.set EVENT_JOY_HAT 0 SDL_HAT_LEFT bits.BIT_LEFT
  t

/-- The statements of the joystick constructor after its `if`/`else`:
`clearMapping ()`, the deadzones, the default mappings. -/
def initJoystick (bits : InputBits) (c : Controller) : Controller :=
  let c1 := clearMapping c CLEAR_ALL
  let c2 := { c1 with deadzones := fun _ => DEFAULT_DEADZONE }
  { c2 with stick := defaultMappings bits c2.stick }

/-- The loop of the joystick constructor: the first `i < 32` with
`( mask & ( 1u << i ) ) == 0u`. -/
def freeIndex (mask : Nat) : Option Nat :=
  (List.range 32).find? (fun i => mask &&& (1 <<< i) == 0)

/-- The constructor `Controller ( SDL_Joystick * )` for a joystick with GUID `g`.
`c0` holds the members as they are when the body starts.  The result is the
registry after the call and either the constructed device or the exception.
In the source the statements after the `if`/`else` are reached from the first
branch only: the loop of the second branch returns or falls through to the
throw. -/
def newJoystick (bits : InputBits) (reg : Registry) (c0 : Controller) (g : Nat) :
    Registry × Except String Controller :=
  let c := { c0 with guid := g }
  match reg g with
  | none =>
    let c := { c with index := 0 }
    let reg := reg.set g 1
    (reg, Except.ok (initJoystick bits c))
  | some mask =>
    match freeIndex mask with
    | some i => (reg.set g (mask ||| (1 <<< i)), Except.ok { c with index := i })
    | none => (reg, Except.error "Too many duplicate guids")

/-- The destructor `~Controller`. -/
def destroy (reg : Registry) (c : Controller) : Registry :=
  match reg c.guid with
  | none => reg
  | some mask =>
    if c.index ≥ 32 then reg
    else reg.set c.guid (mask &&& not32 (1 <<< c.index))

/-- The static `isPowerOfTwo ( x )`; `x - 1` is evaluated only for `x != 0`. -/
def isPowerOfTwo (x : Nat) : Bool :=
  x != 0 && (x &&& (x - 1)) == 0

/-- Method `isOnlyGuid ()`; `guidBitset[g]` is `0` for a GUID that is not known
(the entry that `operator[]` creates for it is left out of the model).  The
result of `isKeyboard ()` is a parameter. -/
def isOnlyGuid (isKeyboard : Bool) (reg : Registry) (c : Controller) : Bool :=
  if isKeyboard then true
  else isPowerOfTwo ((reg c.guid).getD 0)

/-- The constructor called `n` times in a row for joysticks with the same GUID:
the registry afterwards and the outcome of each call. -/
def constructN (bits : InputBits) (c0 : Controller) (g : Nat) :
    Nat → Registry → Registry × List (Except String Controller)
  | 0, reg => (reg, [])
  | n + 1, reg =>
    let r := newJoystick bits reg c0 g
    let rest := constructN bits c0 g n r.1
    (rest.1, r.2 :: rest.2)

/-! ## The keyboard constructor and the live devices -/

/-- The constructor `Controller ( KeyboardEnum )`: `memset` zeroes the GUID and
the index, then `clearMapping ()`.  `c0` holds the members as they are when the
body starts. -/
def newKeyboard (c0 : Controller) : Controller :=
  clearMapping { c0 with guid := 0, index := 0 } CLEAR_ALL

/-- The registry together with the joystick devices that are alive. -/
structure Devices where
  /-- The static `guidBitset`. -/
  reg : Registry := fun _ => none
  /-- The live joystick devices, the latest first. -/
  joysticks : List Controller := []

/-- One construction or destruction.  `allowed g` says which GUIDs joysticks
may report.  A keyboard is not recorded: its construction leaves the registry
as it is, and its destructor runs on the zeroed GUID and index. -/
inductive Step (bits : InputBits) (allowed : Nat → Prop) : Devices → Devices → Prop where
  /-- A joystick of GUID `g` is constructed without a throw. -/
  | construct (s : Devices) (c0 : Controller) (g : Nat) (d : Controller) :
      allowed g → (newJoystick bits s.reg c0 g).2 = Except.ok d →
      Step bits allowed s { reg := (newJoystick bits s.reg c0 g).1, joysticks := d :: s.joysticks }
  /-- A live joystick is destroyed. -/
  | destroyJoystick (s : Devices) (l1 : List Controller) (d : Controller) (l2 : List Controller) :
      s.joysticks = l1 ++ d :: l2 →
      Step bits allowed s { reg := destroy s.reg d, joysticks := l1 ++ l2 }
  /-- A keyboard is destroyed. -/
  | destroyKeyboard (s : Devices) (c0 : Controller) :
      Step bits allowed s { reg := destroy s.reg (newKeyboard c0), joysticks := s.joysticks }

/-- The states reached from the empty registry with no device. -/
inductive Reachable (bits : InputBits) (allowed : Nat → Prop) : Devices → Prop where
  /-- The start: nothing is registered, nothing is alive. -/
  | start : Reachable bits allowed {}
  /-- One more construction or destruction. -/
  | step (s t : Devices) : Reachable bits allowed s → Step bits allowed s t →
      Reachable bits allowed t

/-! ## `trim` (`lib/Utilities.cpp`) -/

/-- Library `std::string::find_first_not_of ( ws )`: the index of the first
character that is not in `ws`, and `none` for `npos`.  Strings are lists of
characters. -/
def find_first_not_of : List Char → List Char → Option Nat
  | [], _ => none
  | c :: cs, ws => if c ∈ ws then (find_first_not_of cs ws).map (· + 1) else some 0

/-- Library `std::string::find_last_not_of ( ws )`: the index of the last
character that is not in `ws`, and `none` for `npos`. -/
def find_last_not_of : List Char → List Char → Option Nat
  | [], _ => none
  | c :: cs, ws =>
    match find_last_not_of cs ws with
    | some i => some (i + 1)
    | none => if c ∈ ws then none else some 0

/-- Library `str.substr ( pos, len )`, for `pos` within the string. -/
def substr (str : List Char) (pos len : Nat) : List Char :=
  (str.drop pos).take len

/-- Library `str.substr ( pos )`, for `pos` within the string. -/
def substrFrom (str : List Char) (pos : Nat) : List Char :=
  str.drop pos

/-- The function `trim ( str, ws )`. -/
def trim (str ws : List Char) : List Char :=
  let str1 :=
    match find_last_not_of str ws with
    | some endpos => substr str 0 (endpos + 1)
    | none => str
  match find_first_not_of str1 ws with
  | some startpos => substrFrom str1 startpos
  | none => str1

/-! ## Specification-side definitions and sample controllers -/

/-- The specification's reading of the hat's live path: the OR of `table[hat][d]` over
every direction bit `d` present in the raw value. -/
def hatDirectionsOr (t : Mappings) (hat value : Nat) : Nat :=
  (if value &&& SDL_HAT_UP ≠ 0 then t EVENT_JOY_HAT hat SDL_HAT_UP else 0) |||
  (if value &&& SDL_HAT_RIGHT ≠ 0 then t EVENT_JOY_HAT hat SDL_HAT_RIGHT else 0) |||
  (if value &&& SDL_HAT_DOWN ≠ 0 then t EVENT_JOY_HAT hat SDL_HAT_DOWN else 0) |||
  (if value &&& SDL_HAT_LEFT ≠ 0 then t EVENT_JOY_HAT hat SDL_HAT_LEFT else 0)

/-- A sample table: axis 0 maps positive to `2` and negative to `8`, hat 0 maps
up, right, down, left to `1`, `2`, `4`, `8`, button 0 maps to `16`; the centered
masks are the ORs of their rows. -/
def sampleTable : Mappings := fun e i v =>
  if e = EVENT_JOY_AXIS ∧ i = 0 then
    (if v = AXIS_CENTERED then 10 else if v = AXIS_POSITIVE then 2
      else if v = AXIS_NEGATIVE then 8 else 0)
  else if e = EVENT_JOY_HAT ∧ i = 0 then
    (if v = SDL_HAT_CENTERED then 15 else if v = SDL_HAT_UP then 1
      else if v = SDL_HAT_RIGHT then 2 else if v = SDL_HAT_DOWN then 4
      else if v = SDL_HAT_LEFT then 8 else 0)
  else if e = EVENT_JOY_BUTTON ∧ i = 0 then 16
  else 0

/-- A joystick with the sample table, no capture active, `state = 16`. -/
def sampleLive : Controller := { state := 16, stick := sampleTable }

/-- A joystick whose hat 0 has lost its centered mask while up and right are
still mapped: the sample joystick after `clearMapping ( 8 )`, which zeroes the
entries that intersect the left bit, the centered mask among them. -/
def staleHat : Controller := clearMapping { sampleLive with state := 0 } 8

/-- The sample joystick during a capture of the mask `32` for owner `7`, no
control armed yet. -/
def sampleCapture : Controller := { stick := sampleTable, keyToMap := 32, owner := some 7 }

/-- A stand-in for `getVKeyName`: every key is named `"K"`. -/
def sampleKeyName : Nat → Nat → Bool → String := fun _ _ _ => "K"

/-- A keyboard during a capture of the mask `9` (bits 0 and 3) for owner `7`;
slot 0 is bound to code `65` and slot 5 to code `66`. -/
def sampleKeyboard : Controller :=
  { keyToMap := 9, owner := some 7,
    codes := fun i => if i = 0 then 65 else if i = 5 then 66 else 0,
    names := fun i => if i = 0 then "A" else if i = 5 then "B" else "" }

/-- The table invariants of the specification: every axis row has
`centered == positive | negative` and every hat row has
`centered == up | right | down | left`. -/
def tableInvariant (t : Mappings) : Prop :=
  (∀ a, t EVENT_JOY_AXIS a AXIS_CENTERED =
    t EVENT_JOY_AXIS a AXIS_POSITIVE ||| t EVENT_JOY_AXIS a AXIS_NEGATIVE) ∧
  (∀ h, t EVENT_JOY_HAT h SDL_HAT_CENTERED =
    t EVENT_JOY_HAT h SDL_HAT_UP ||| t EVENT_JOY_HAT h SDL_HAT_RIGHT |||
    t EVENT_JOY_HAT h SDL_HAT_DOWN ||| t EVENT_JOY_HAT h SDL_HAT_LEFT)

/-- Sample values of the header constants: up, right, down, left are the bits
`1`, `2`, `4`, `8` and the axis masks are `left | right` and `up | down`. -/
def sampleBits : InputBits :=
  { BIT_UP := 1, BIT_DOWN := 4, BIT_LEFT := 8, BIT_RIGHT := 2, MASK_X_AXIS := 10, MASK_Y_AXIS := 5 }

/-- A registry that knows GUID `5` with the indices `0` and `1` taken, GUID `6`
with all 32 indices taken, and nothing else. -/
def sampleRegistry : Registry := fun g =>
  if g = 5 then some 3 else if g = 6 then some 4294967295 else none

/-- The members of a device before a constructor body runs, taken as zeroed
memory: no mapping, deadzone `0` on every axis. -/
def zeroedMembers : Controller := { deadzones := fun _ => 0 }

/-- The number of set bits of `x` among the 32 bits of a `uint32_t`. -/
def popcount32 (x : Nat) : Nat :=
  ((Finset.range 32).filter (fun i => x.testBit i = true)).card

/-- A keyboard with no capture active; slot 0 is bound to code `65` and slot 5
to code `66`. -/
def idleKeyboard : Controller :=
  { codes := fun i => if i = 0 then 65 else if i = 5 then 66 else 0,
    names := fun i => if i = 0 then "A" else if i = 5 then "B" else "" }

/-- The registry invariant: the index of every live joystick is below 32 and its
bit is set in the occupancy mask of its GUID, and two live joysticks with the
same GUID have different indices. -/
def registryInvariant (s : Devices) : Prop :=
  (∀ d, d ∈ s.joysticks →
    d.index < 32 ∧ ∃ m, s.reg d.guid = some m ∧ m.testBit d.index = true) ∧
  s.joysticks.Pairwise (fun a b => a.guid = b.guid → a.index ≠ b.index)

/-- The first joystick of the all-zero GUID, constructed on zeroed members from
the empty registry: it has index `0` and the mask of its GUID is `1`. -/
def zeroGuidPad : Controller :=
  initJoystick sampleBits { zeroedMembers with guid := 0, index := 0 }

/-- The devices after that joystick was constructed and a keyboard was
destroyed: the joystick is still alive. -/
def afterKeyboardGone : Devices :=
  { reg := destroy (Registry.set (fun _ => none) 0 1) (newKeyboard zeroedMembers),
    joysticks := [zeroGuidPad] }

/-! ## Bit-level facts -/

theorem testBit_not32 (x i : Nat) :
    (not32 x).testBit i = (decide (i < 32) && !x.testBit i) := by
  unfold not32
  rw [Nat.testBit_two_pow_sub_succ (Nat.mod_lt _ (by norm_num)), Nat.testBit_mod_two_pow]
  by_cases h : i < 32 <;> simp [h]

theorem lor_left_comm (a b c : Nat) : a ||| (b ||| c) = b ||| (a ||| c) := by
  rw [← Nat.lor_assoc, Nat.lor_comm a b, Nat.lor_assoc]

theorem and_not32_and_self (s m : Nat) : (s &&& not32 m) &&& m = 0 := by
  apply Nat.eq_of_testBit_eq
  intro i
  simp only [Nat.testBit_and, testBit_not32, Nat.zero_testBit]
  cases s.testBit i <;> cases m.testBit i <;> simp

/-! ## Axis, live path -/

/-- C1: with no capture active, the axis handler computes the direction from
the deadzone (centered inside it, positive above it, negative below its
negation), clears the centered mask from `state` and ORs in the mask of the
direction when it is not centered; nothing else changes and no callback is
made. -/
theorem axis_live_state (c : Controller) (axis : Nat) (raw : Int) (h : c.keyToMap = 0) :
    (raw.natAbs ≤ c.deadzones axis → axisValue (c.deadzones axis) raw = AXIS_CENTERED) ∧
    ((c.deadzones axis : Int) < raw → axisValue (c.deadzones axis) raw = AXIS_POSITIVE) ∧
    (raw < -(c.deadzones axis : Int) → axisValue (c.deadzones axis) raw = AXIS_NEGATIVE) ∧
    joystickAxisEvent c axis raw =
      ({ c with state :=
          (c.state &&& not32 (c.stick EVENT_JOY_AXIS axis AXIS_CENTERED)) |||
            (if axisValue (c.deadzones axis) raw ≠ AXIS_CENTERED
              then c.stick EVENT_JOY_AXIS axis (axisValue (c.deadzones axis) raw) else 0) }, []) := by
  refine ⟨?_, ?_, ?_, ?_⟩
  · intro hle
    simp [axisValue, AXIS_CENTERED, Nat.not_lt.mpr hle]
  · intro hlt
    have h1 : raw.natAbs > c.deadzones axis := by omega
    have h2 : raw > 0 := by omega
    simp [axisValue, h1, h2]
  · intro hlt
    have h1 : raw.natAbs > c.deadzones axis := by omega
    have h2 : ¬ raw > 0 := by omega
    simp [axisValue, h1, h2]
  · unfold joystickAxisEvent
    simp only [h, ne_eq, not_true_eq_false, if_false]
    by_cases hv : axisValue (c.deadzones axis) raw = AXIS_CENTERED
    · simp [hv]
    · simp [hv]

/-- C1 at the sample joystick: the raw value `+30000` on axis 0 is positive and
turns `state = 16` into `16 | 2 = 18`. -/
theorem axis_live_state_witness :
    sampleLive.keyToMap = 0 ∧
    axisValue (sampleLive.deadzones 0) 30000 = AXIS_POSITIVE ∧
    (joystickAxisEvent sampleLive 0 30000).1.state = 18 :=
  ⟨rfl, (axis_live_state sampleLive 0 30000 rfl).2.1 (by decide),
    by rw [(axis_live_state sampleLive 0 30000 rfl).2.2.2]; decide⟩

/-! ## Axis, centering -/

/-- C2: with no capture active, after an axis event inside the deadzone no bit
of the axis's centered mask is left in `state`; and with deadzone 25000 and the
positive slot mapped to a mask `R` contained in the centered mask, the value
`+30000` puts `R` into `state` and a following value `0` removes it. -/
theorem axis_centered_clears_mask (c : Controller) (axis : Nat) (h : c.keyToMap = 0) :
    (∀ raw : Int, raw.natAbs ≤ c.deadzones axis →
      (joystickAxisEvent c axis raw).1.stick = c.stick ∧
      (joystickAxisEvent c axis raw).1.state &&&
        c.stick EVENT_JOY_AXIS axis AXIS_CENTERED = 0) ∧
    (∀ R : Nat, c.deadzones axis = 25000 →
      c.stick EVENT_JOY_AXIS axis AXIS_POSITIVE = R →
      R &&& c.stick EVENT_JOY_AXIS axis AXIS_CENTERED = R →
      (joystickAxisEvent c axis 30000).1.state &&& R = R ∧
      (joystickAxisEvent (joystickAxisEvent c axis 30000).1 axis 0).1.state &&& R = 0) := by
  constructor
  · intro raw hle
    have hv : axisValue (c.deadzones axis) raw = 0 := by
      simp [axisValue, Nat.not_lt.mpr hle]
    simp [joystickAxisEvent, h, hv, AXIS_CENTERED, and_not32_and_self]
  · intro R hdz hpos hsub
    have hv1 : axisValue 25000 30000 = AXIS_POSITIVE := by decide
    have hv0 : axisValue 25000 0 = 0 := by decide
    have hne : ¬ AXIS_POSITIVE = 0 := by decide
    simp only [joystickAxisEvent, h, hdz, hv1, hv0, hpos, ne_eq, not_true_eq_false, if_false,
      hne, not_false_eq_true, if_true, AXIS_CENTERED]
    constructor
    · apply Nat.eq_of_testBit_eq
      intro i
      simp only [Nat.testBit_and, Nat.testBit_or]
      cases R.testBit i <;> simp
    · have hb : ∀ i, R.testBit i = true →
          (c.stick EVENT_JOY_AXIS axis 0).testBit i = true := by
        intro i hi
        have := congrArg (fun n => n.testBit i) hsub
        simp only [Nat.testBit_and, hi, Bool.true_and] at this
        exact this
      apply Nat.eq_of_testBit_eq
      intro i
      simp only [Nat.testBit_and, Nat.testBit_or, testBit_not32, Nat.zero_testBit]
      cases hR : R.testBit i
      · simp
      · simp [hb i hR]

/-- C2 at the sample joystick (deadzone 25000, positive slot `2` inside the
centered mask `10`): after `+30000` and `0` no bit of the mask is left. -/
theorem axis_centered_clears_mask_witness :
    sampleLive.keyToMap = 0 ∧
    (joystickAxisEvent sampleLive 0 0).1.state &&& 10 = 0 ∧
    (joystickAxisEvent sampleLive 0 30000).1.state &&& 2 = 2 ∧
    (joystickAxisEvent (joystickAxisEvent sampleLive 0 30000).1 0 0).1.state &&& 2 = 0 :=
  ⟨rfl, ((axis_centered_clears_mask sampleLive 0 rfl).1 0 (by decide)).2,
    ((axis_centered_clears_mask sampleLive 0 rfl).2 2 rfl rfl (by decide)).1,
    ((axis_centered_clears_mask sampleLive 0 rfl).2 2 rfl rfl (by decide)).2⟩

/-! ## Hat, live path -/

/-- The state written by the live path of the hat handler. -/
theorem hat_live_eq (c : Controller) (hat value : Nat) (h : c.keyToMap = 0) :
    joystickHatEvent c hat value =
      ({ c with state :=
          ((c.state &&& not32 (c.stick EVENT_JOY_HAT hat SDL_HAT_CENTERED)) |||
            (if value &&& SDL_HAT_UP ≠ 0 then c.stick EVENT_JOY_HAT hat SDL_HAT_UP
              else if value &&& SDL_HAT_DOWN ≠ 0 then c.stick EVENT_JOY_HAT hat SDL_HAT_DOWN
              else 0)) |||
            (if value &&& SDL_HAT_LEFT ≠ 0 then c.stick EVENT_JOY_HAT hat SDL_HAT_LEFT
              else if value &&& SDL_HAT_RIGHT ≠ 0 then c.stick EVENT_JOY_HAT hat SDL_HAT_RIGHT
              else 0) }, []) := by
  unfold joystickHatEvent
  simp only [h, ne_eq, not_true_eq_false, if_false]
  by_cases hu : value &&& SDL_HAT_UP = 0 <;> by_cases hd : value &&& SDL_HAT_DOWN = 0 <;>
    by_cases hl : value &&& SDL_HAT_LEFT = 0 <;> by_cases hr : value &&& SDL_HAT_RIGHT = 0 <;>
    simp [hu, hd, hl, hr]

/-- C3 (as stated) fails: on the sample table, with `state = 16`, the raw hat
value `up|down = 5` leaves `state = 17` (only the up mask is ORed in), while the
OR over every direction bit present would give `21`. -/
theorem hat_live_opposite_counterexample :
    (joystickHatEvent sampleLive 0 5).1.state = 17 ∧
    (sampleLive.state &&& not32 (sampleLive.stick EVENT_JOY_HAT 0 SDL_HAT_CENTERED)) |||
      hatDirectionsOr sampleLive.stick 0 5 = 21 := by
  decide

/-- C3 (amended): with no capture active, the hat handler clears the centered
mask from `state`, then ORs in the up mask if the up bit is present, else the
down mask if the down bit is present, and then the left mask if the left bit is
present, else the right mask if the right bit is present; nothing else changes.
For a raw value that holds neither up together with down nor left together with
right, this is the OR of the masks of every direction bit present. -/
theorem hat_live_state (c : Controller) (hat value : Nat) (h : c.keyToMap = 0) :
    joystickHatEvent c hat value =
      ({ c with state :=
          ((c.state &&& not32 (c.stick EVENT_JOY_HAT hat SDL_HAT_CENTERED)) |||
            (if value &&& SDL_HAT_UP ≠ 0 then c.stick EVENT_JOY_HAT hat SDL_HAT_UP
              else if value &&& SDL_HAT_DOWN ≠ 0 then c.stick EVENT_JOY_HAT hat SDL_HAT_DOWN
              else 0)) |||
            (if value &&& SDL_HAT_LEFT ≠ 0 then c.stick EVENT_JOY_HAT hat SDL_HAT_LEFT
              else if value &&& SDL_HAT_RIGHT ≠ 0 then c.stick EVENT_JOY_HAT hat SDL_HAT_RIGHT
              else 0) }, []) ∧
    (¬ (value &&& SDL_HAT_UP ≠ 0 ∧ value &&& SDL_HAT_DOWN ≠ 0) →
      ¬ (value &&& SDL_HAT_LEFT ≠ 0 ∧ value &&& SDL_HAT_RIGHT ≠ 0) →
      joystickHatEvent c hat value =
        ({ c with state :=
            (c.state &&& not32 (c.stick EVENT_JOY_HAT hat SDL_HAT_CENTERED)) |||
              hatDirectionsOr c.stick hat value }, [])) := by
  refine ⟨hat_live_eq c hat value h, ?_⟩
  intro hv hh
  rw [hat_live_eq c hat value h]
  have key : ∀ a b : Nat, a = b →
      (({ c with state := a }, []) : Controller × List Call) = ({ c with state := b }, []) := by
    intro a b hab
    rw [hab]
  apply key
  unfold hatDirectionsOr
  by_cases hu : value &&& SDL_HAT_UP = 0 <;> by_cases hd : value &&& SDL_HAT_DOWN = 0 <;>
    by_cases hl : value &&& SDL_HAT_LEFT = 0 <;> by_cases hr : value &&& SDL_HAT_RIGHT = 0 <;>
    simp [hu, hd, hl, hr, Nat.lor_assoc, Nat.lor_comm, lor_left_comm] at hv hh ⊢

/-- The `state` after a live hat event with value up|right. -/
theorem hat_live_up_right (c : Controller) (hat : Nat) (h : c.keyToMap = 0) :
    (joystickHatEvent c hat (SDL_HAT_UP ||| SDL_HAT_RIGHT)).1 =
      { c with state :=
          ((c.state &&& not32 (c.stick EVENT_JOY_HAT hat SDL_HAT_CENTERED)) |||
            c.stick EVENT_JOY_HAT hat SDL_HAT_UP) ||| c.stick EVENT_JOY_HAT hat SDL_HAT_RIGHT } := by
  rw [hat_live_eq c hat _ h]
  have h1 : ((SDL_HAT_UP ||| SDL_HAT_RIGHT) &&& SDL_HAT_UP ≠ 0) = True := by decide
  have h2 : ((SDL_HAT_UP ||| SDL_HAT_RIGHT) &&& SDL_HAT_LEFT ≠ 0) = False := by decide
  have h3 : ((SDL_HAT_UP ||| SDL_HAT_RIGHT) &&& SDL_HAT_RIGHT ≠ 0) = True := by decide
  simp only [h1, h2, h3, if_true, if_false]

/-- The `state` after a live hat event with value centered. -/
theorem hat_live_centered (c : Controller) (hat : Nat) (h : c.keyToMap = 0) :
    (joystickHatEvent c hat SDL_HAT_CENTERED).1 =
      { c with state := c.state &&& not32 (c.stick EVENT_JOY_HAT hat SDL_HAT_CENTERED) } := by
  rw [hat_live_eq c hat _ h]
  have h1 : ∀ d, (SDL_HAT_CENTERED &&& d ≠ 0) = False := by
    intro d
    simp [SDL_HAT_CENTERED]
  simp only [h1, if_false, Nat.or_zero]

/-- C4 (as stated) fails: on a hat whose centered mask is `0` while up and right
are mapped to `1` and `2`, the value up|right sets `state = 3` and the following
centered event clears nothing. -/
theorem hat_center_stale_counterexample :
    staleHat.keyToMap = 0 ∧
    staleHat.stick EVENT_JOY_HAT 0 SDL_HAT_UP ||| staleHat.stick EVENT_JOY_HAT 0 SDL_HAT_RIGHT = 3 ∧
    (joystickHatEvent staleHat 0 (SDL_HAT_UP ||| SDL_HAT_RIGHT)).1.state = 3 ∧
    (joystickHatEvent (joystickHatEvent staleHat 0 (SDL_HAT_UP ||| SDL_HAT_RIGHT)).1 0
      SDL_HAT_CENTERED).1.state = 3 := by
  decide

/-- C4 (amended): with no capture active, on a hat whose centered mask contains
the up and right masks, a hat event with value up|right ORs exactly
`table[h][up] | table[h][right]` into `state` after the centered clear, and a
following centered event clears exactly the bits of that combined mask: they
were all set and are all clear afterwards, and no other bit of `state`
differs. -/
theorem hat_diagonal_then_center (c : Controller) (hat : Nat) (h : c.keyToMap = 0)
    (hsub : (c.stick EVENT_JOY_HAT hat SDL_HAT_UP ||| c.stick EVENT_JOY_HAT hat SDL_HAT_RIGHT) &&&
        c.stick EVENT_JOY_HAT hat SDL_HAT_CENTERED =
      c.stick EVENT_JOY_HAT hat SDL_HAT_UP ||| c.stick EVENT_JOY_HAT hat SDL_HAT_RIGHT) :
    (joystickHatEvent c hat (SDL_HAT_UP ||| SDL_HAT_RIGHT)).1.state =
      (c.state &&& not32 (c.stick EVENT_JOY_HAT hat SDL_HAT_CENTERED)) |||
        (c.stick EVENT_JOY_HAT hat SDL_HAT_UP ||| c.stick EVENT_JOY_HAT hat SDL_HAT_RIGHT) ∧
    (joystickHatEvent (joystickHatEvent c hat (SDL_HAT_UP ||| SDL_HAT_RIGHT)).1 hat
        SDL_HAT_CENTERED).1.state =
      (joystickHatEvent c hat (SDL_HAT_UP ||| SDL_HAT_RIGHT)).1.state &&&
        not32 (c.stick EVENT_JOY_HAT hat SDL_HAT_UP ||| c.stick EVENT_JOY_HAT hat SDL_HAT_RIGHT) ∧
    (∀ i, (c.stick EVENT_JOY_HAT hat SDL_HAT_UP |||
          c.stick EVENT_JOY_HAT hat SDL_HAT_RIGHT).testBit i = true →
      (joystickHatEvent c hat (SDL_HAT_UP ||| SDL_HAT_RIGHT)).1.state.testBit i = true ∧
      (joystickHatEvent (joystickHatEvent c hat (SDL_HAT_UP ||| SDL_HAT_RIGHT)).1 hat
        SDL_HAT_CENTERED).1.state.testBit i = false) ∧
    (∀ i, (c.stick EVENT_JOY_HAT hat SDL_HAT_UP |||
          c.stick EVENT_JOY_HAT hat SDL_HAT_RIGHT).testBit i = false →
      (joystickHatEvent (joystickHatEvent c hat (SDL_HAT_UP ||| SDL_HAT_RIGHT)).1 hat
        SDL_HAT_CENTERED).1.state.testBit i =
      (joystickHatEvent c hat (SDL_HAT_UP ||| SDL_HAT_RIGHT)).1.state.testBit i) := by
  have hb : ∀ i, (c.stick EVENT_JOY_HAT hat SDL_HAT_UP |||
        c.stick EVENT_JOY_HAT hat SDL_HAT_RIGHT).testBit i = true →
      (c.stick EVENT_JOY_HAT hat SDL_HAT_CENTERED).testBit i = true := by
    intro i hi
    have := congrArg (fun n => n.testBit i) hsub
    simp only [Nat.testBit_and, hi, Bool.true_and] at this
    exact this
  rw [hat_live_centered _ hat (by rw [hat_live_up_right c hat h]; exact h), hat_live_up_right c hat h]
  simp only []
  refine ⟨by rw [Nat.lor_assoc], ?_, ?_, ?_⟩
  · apply Nat.eq_of_testBit_eq
    intro i
    have := hb i
    simp only [Nat.testBit_and, Nat.testBit_or, testBit_not32] at this ⊢
    cases hU : (c.stick EVENT_JOY_HAT hat SDL_HAT_UP).testBit i <;>
      cases hR : (c.stick EVENT_JOY_HAT hat SDL_HAT_RIGHT).testBit i <;>
      cases hC : (c.stick EVENT_JOY_HAT hat SDL_HAT_CENTERED).testBit i <;>
      simp_all
  · intro i hi
    have := hb i hi
    simp only [Nat.testBit_and, Nat.testBit_or, testBit_not32] at hi this ⊢
    cases hU : (c.stick EVENT_JOY_HAT hat SDL_HAT_UP).testBit i <;>
      cases hR : (c.stick EVENT_JOY_HAT hat SDL_HAT_RIGHT).testBit i <;>
      simp_all
  · intro i hi
    simp only [Nat.testBit_and, Nat.testBit_or, testBit_not32] at hi ⊢
    cases hU : (c.stick EVENT_JOY_HAT hat SDL_HAT_UP).testBit i <;>
      cases hR : (c.stick EVENT_JOY_HAT hat SDL_HAT_RIGHT).testBit i <;>
      simp_all

/-- C3 (amended) at the sample joystick: the diagonal up|right ORs the two
masks `1` and `2` into `state = 16`. -/
theorem hat_live_state_witness :
    sampleLive.keyToMap = 0 ∧
    joystickHatEvent sampleLive 0 3 =
      ({ sampleLive with state :=
          (sampleLive.state &&& not32 (sampleLive.stick EVENT_JOY_HAT 0 SDL_HAT_CENTERED)) |||
            hatDirectionsOr sampleLive.stick 0 3 }, []) ∧
    (joystickHatEvent sampleLive 0 3).1.state = 19 :=
  ⟨rfl, (hat_live_state sampleLive 0 3 rfl).2 (by decide) (by decide), by decide⟩

/-- C4 (amended) at the sample joystick: up|right turns `state = 16` into `19`
and centering gives back `16`. -/
theorem hat_diagonal_then_center_witness :
    sampleLive.keyToMap = 0 ∧
    (joystickHatEvent sampleLive 0 (SDL_HAT_UP ||| SDL_HAT_RIGHT)).1.state =
      (sampleLive.state &&& not32 (sampleLive.stick EVENT_JOY_HAT 0 SDL_HAT_CENTERED)) |||
        (sampleLive.stick EVENT_JOY_HAT 0 SDL_HAT_UP |||
          sampleLive.stick EVENT_JOY_HAT 0 SDL_HAT_RIGHT) ∧
    (joystickHatEvent (joystickHatEvent sampleLive 0 (SDL_HAT_UP ||| SDL_HAT_RIGHT)).1 0
      SDL_HAT_CENTERED).1.state = 16 :=
  ⟨rfl, (hat_diagonal_then_center sampleLive 0 rfl (by decide)).1, by decide⟩

/-! ## Button, live path -/

theorem and_not32_zero (s : Nat) (hs : s < 2 ^ 32) : s &&& not32 0 = s := by
  have : not32 0 = 2 ^ 32 - 1 := by decide
  rw [this]
  exact Nat.and_pow_two_sub_one_of_lt_two_pow hs

/-- C5: with no capture active, a pressed event ORs `table[b][pressed]` into
`state`, a released event clears `table[b][released]` from `state`, an event
whose looked-up mapping is `0` changes nothing, and in every case only `state`
changes (the table is the same) and no callback is made. -/
theorem button_live_state (c : Controller) (button : Nat) (h : c.keyToMap = 0)
    (hs : c.state < 2 ^ 32) :
    joystickButtonEvent c button SDL_PRESSED =
      ({ c with state := c.state ||| c.stick EVENT_JOY_BUTTON button SDL_PRESSED }, []) ∧
    joystickButtonEvent c button SDL_RELEASED =
      ({ c with state := c.state &&& not32 (c.stick EVENT_JOY_BUTTON button SDL_RELEASED) }, []) ∧
    (∀ st, c.stick EVENT_JOY_BUTTON button st = 0 → joystickButtonEvent c button st = (c, [])) ∧
    (∀ st, (joystickButtonEvent c button st).1.stick = c.stick) := by
  have hcap : ¬ c.keyToMap ≠ 0 := not_not.mpr h
  refine ⟨?_, ?_, ?_, ?_⟩
  · unfold joystickButtonEvent
    rw [if_neg hcap]
    by_cases hk : c.stick EVENT_JOY_BUTTON button SDL_PRESSED = 0
    · simp only [hk, if_true, Nat.or_zero]
    · have hne : ¬ SDL_PRESSED = SDL_RELEASED := by decide
      simp only [hk, hne, if_false, if_true]
  · unfold joystickButtonEvent
    rw [if_neg hcap]
    by_cases hk : c.stick EVENT_JOY_BUTTON button SDL_RELEASED = 0
    · simp only [hk, if_true, and_not32_zero c.state hs]
    · simp only [hk, if_false, if_true]
  · intro st hk
    unfold joystickButtonEvent
    rw [if_neg hcap]
    simp only [hk, if_true]
  · intro st
    unfold joystickButtonEvent
    rw [if_neg hcap]
    simp only []
    split
    · rfl
    · split
      · rfl
      · split <;> rfl

/-- C5 at the sample joystick: releasing button 0 (mapped to `16`) clears
`state = 16` to `0`, pressing it keeps `16`, and the unmapped button 1 leaves
the controller as it is. -/
theorem button_live_state_witness :
    sampleLive.keyToMap = 0 ∧ sampleLive.state < 2 ^ 32 ∧
    (joystickButtonEvent sampleLive 0 SDL_RELEASED).1.state = 0 ∧
    (joystickButtonEvent sampleLive 0 SDL_PRESSED).1.state = 16 ∧
    joystickButtonEvent sampleLive 1 SDL_PRESSED = (sampleLive, []) :=
  ⟨rfl, by decide,
    by rw [(button_live_state sampleLive 0 rfl (by decide)).2.1]; decide,
    by rw [(button_live_state sampleLive 0 rfl (by decide)).1]; decide,
    (button_live_state sampleLive 1 rfl (by decide)).2.2.1 SDL_PRESSED (by decide)⟩

/-! ## Axis, capture path -/

theorem axisValue_off_center (dz : Nat) (raw : Int) (h : raw.natAbs > dz) :
    axisValue dz raw = AXIS_POSITIVE ∨ axisValue dz raw = AXIS_NEGATIVE := by
  unfold axisValue
  rw [if_pos h]
  by_cases hp : raw > 0
  · exact Or.inl (if_pos hp)
  · exact Or.inr (if_neg hp)

theorem axisValue_centered (dz : Nat) (raw : Int) (h : raw.natAbs ≤ dz) :
    axisValue dz raw = 0 := by
  unfold axisValue
  rw [if_neg (Nat.not_lt.mpr h)]

/-- With a capture active and no direction of the axis armed, the handler only
records `active[axis][value] = keyToMap`. -/
theorem axis_capture_arm_eq (c : Controller) (axis : Nat) (raw : Int) (hm : c.keyToMap ≠ 0)
    (ha : axisActiveValue c axis = 0) :
    joystickAxisEvent c axis raw =
      ({ c with active :=
          (Mappings.set c.active EVENT_JOY_AXIS axis (axisValue (c.deadzones axis) raw)
            c.keyToMap) }, []) := by
  unfold joystickAxisEvent
  simp only [hm, ne_eq, not_false_eq_true, if_true, ha, not_true_eq_false, and_false, if_false]

/-- With a capture active and a direction of the axis armed, an event inside
the deadzone writes the table, cancels the capture and notifies the owner. -/
theorem axis_capture_commit_eq (c : Controller) (axis : Nat) (raw : Int) (hm : c.keyToMap ≠ 0)
    (ha : axisActiveValue c axis ≠ 0) (hv : axisValue (c.deadzones axis) raw = 0) :
    joystickAxisEvent c axis raw =
      (cancelMapping { c with stick :=
          (Mappings.set (c.stick.set EVENT_JOY_AXIS axis (axisActiveValue c axis) c.keyToMap)
            EVENT_JOY_AXIS axis AXIS_CENTERED
            ((c.stick.set EVENT_JOY_AXIS axis (axisActiveValue c axis) c.keyToMap)
                EVENT_JOY_AXIS axis AXIS_POSITIVE |||
              (c.stick.set EVENT_JOY_AXIS axis (axisActiveValue c axis) c.keyToMap)
                EVENT_JOY_AXIS axis AXIS_NEGATIVE)) },
        notify c.owner c.keyToMap) := by
  unfold joystickAxisEvent
  simp only [hm, ne_eq, not_false_eq_true, if_true, ha, hv, and_self]

theorem axisActiveValue_idle (c : Controller) (axis : Nat)
    (hp : c.active EVENT_JOY_AXIS axis AXIS_POSITIVE = 0)
    (hn : c.active EVENT_JOY_AXIS axis AXIS_NEGATIVE = 0) : axisActiveValue c axis = 0 := by
  unfold axisActiveValue
  rw [if_neg (not_not.mpr hp), if_neg (not_not.mpr hn)]

/-- After arming direction `d` (positive or negative) on an axis with nothing
armed, `d` is the armed direction. -/
theorem axisActiveValue_set (c : Controller) (axis d : Nat) (hm : c.keyToMap ≠ 0)
    (hp : c.active EVENT_JOY_AXIS axis AXIS_POSITIVE = 0)
    (hd : d = AXIS_POSITIVE ∨ d = AXIS_NEGATIVE) :
    axisActiveValue
      { c with active := Mappings.set c.active EVENT_JOY_AXIS axis d c.keyToMap } axis = d := by
  unfold axisActiveValue
  rcases hd with rfl | rfl
  · have : Mappings.set c.active EVENT_JOY_AXIS axis AXIS_POSITIVE c.keyToMap
        EVENT_JOY_AXIS axis AXIS_POSITIVE = c.keyToMap := by simp [Mappings.set]
    simp only [this]
    rw [if_pos hm]
  · have h1 : Mappings.set c.active EVENT_JOY_AXIS axis AXIS_NEGATIVE c.keyToMap
        EVENT_JOY_AXIS axis AXIS_POSITIVE = 0 := by
      have hne : ¬ AXIS_POSITIVE = AXIS_NEGATIVE := by decide
      simp only [Mappings.set, hne, and_false, if_false]
      exact hp
    have h2 : Mappings.set c.active EVENT_JOY_AXIS axis AXIS_NEGATIVE c.keyToMap
        EVENT_JOY_AXIS axis AXIS_NEGATIVE = c.keyToMap := by simp [Mappings.set]
    simp only [h1, h2]
    rw [if_neg (by simp), if_pos hm]

/-- C6: during a capture (`keyToMap ≠ 0`) on an axis with no direction armed, an
event outside the deadzone arms its direction `d` and leaves the table and the
capture as they are; a following event inside the deadzone commits:
`table[a][d] = keyToMap`, `table[a][centered] = table[a][positive] |
table[a][negative]`, every other entry is unchanged, `doneMapping` is called on
the owner with the target mask (once, and only by the committing event), and
afterwards `keyToMap = 0`, the owner is cleared and every armed value is `0`. -/
theorem axis_capture_commit (c : Controller) (axis : Nat) (raw1 raw2 : Int)
    (hm : c.keyToMap ≠ 0)
    (hp : c.active EVENT_JOY_AXIS axis AXIS_POSITIVE = 0)
    (hn : c.active EVENT_JOY_AXIS axis AXIS_NEGATIVE = 0)
    (h1 : raw1.natAbs > c.deadzones axis) (h2 : raw2.natAbs ≤ c.deadzones axis) :
    let d := axisValue (c.deadzones axis) raw1
    let r1 := joystickAxisEvent c axis raw1
    let r2 := joystickAxisEvent r1.1 axis raw2
    (d = AXIS_POSITIVE ∨ d = AXIS_NEGATIVE) ∧
    r1.1.stick = c.stick ∧ r1.2 = [] ∧ r1.1.keyToMap = c.keyToMap ∧ r1.1.owner = c.owner ∧
    axisActiveValue r1.1 axis = d ∧
    r2.1.stick EVENT_JOY_AXIS axis d = c.keyToMap ∧
    r2.1.stick EVENT_JOY_AXIS axis AXIS_CENTERED =
      r2.1.stick EVENT_JOY_AXIS axis AXIS_POSITIVE |||
        r2.1.stick EVENT_JOY_AXIS axis AXIS_NEGATIVE ∧
    (∀ e i v, ¬ (e = EVENT_JOY_AXIS ∧ i = axis ∧ (v = d ∨ v = AXIS_CENTERED)) →
      r2.1.stick e i v = c.stick e i v) ∧
    r2.2 = notify c.owner c.keyToMap ∧
    (∀ o, c.owner = some o → r2.2 = [(o, c.keyToMap)]) ∧
    r2.1.keyToMap = 0 ∧ r2.1.owner = none ∧ (∀ e i v, r2.1.active e i v = 0) := by
  intro d r1 r2
  have ha : axisActiveValue c axis = 0 := axisActiveValue_idle c axis hp hn
  have hd : d = AXIS_POSITIVE ∨ d = AXIS_NEGATIVE := axisValue_off_center _ _ h1
  have hd0 : d ≠ 0 := by
    rcases hd with h | h <;> rw [h] <;> decide
  have e1 : r1 = ({ c with active := Mappings.set c.active EVENT_JOY_AXIS axis d c.keyToMap }, []) :=
    axis_capture_arm_eq c axis raw1 hm ha
  have hact : axisActiveValue r1.1 axis = d := by
    rw [e1]
    exact axisActiveValue_set c axis d hm hp hd
  have hm1 : r1.1.keyToMap ≠ 0 := by rw [e1]; exact hm
  have hv2 : axisValue (r1.1.deadzones axis) raw2 = 0 := by
    rw [e1]
    exact axisValue_centered _ _ h2
  have e2 := axis_capture_commit_eq r1.1 axis raw2 hm1 (by rw [hact]; exact hd0) hv2
  rw [hact] at e2
  have e2' : r2 = _ := e2
  rw [e2']
  rw [e1]
  refine ⟨hd, rfl, rfl, rfl, rfl, ?_, ?_, ?_, ?_, rfl, ?_, rfl, rfl, ?_⟩
  · rw [← e1]; exact hact
  · simp [cancelMapping, Mappings.set, hd0, AXIS_CENTERED]
  · rcases hd with h | h <;>
      simp [cancelMapping, Mappings.set, h, AXIS_CENTERED, AXIS_POSITIVE, AXIS_NEGATIVE]
  · intro e i v hne
    simp only [cancelMapping, Mappings.set]
    by_cases h3 : e = EVENT_JOY_AXIS ∧ i = axis ∧ v = AXIS_CENTERED
    · exact absurd ⟨h3.1, h3.2.1, Or.inr h3.2.2⟩ hne
    · by_cases h4 : e = EVENT_JOY_AXIS ∧ i = axis ∧ v = d
      · exact absurd ⟨h4.1, h4.2.1, Or.inl h4.2.2⟩ hne
      · rw [if_neg h3, if_neg h4]
  · intro o ho
    simp [ho, notify]
  · intro e i v
    rfl

/-- C6 at the sample capture (mask `32`, owner `7`): `+30000` then `0` on axis 0
maps the positive slot to `32`, recomputes the centered mask to `32 | 8` and
calls `doneMapping` once. -/
theorem axis_capture_commit_witness :
    sampleCapture.keyToMap ≠ 0 ∧
    (joystickAxisEvent (joystickAxisEvent sampleCapture 0 30000).1 0 0).1.stick
      EVENT_JOY_AXIS 0 (axisValue (sampleCapture.deadzones 0) 30000) = 32 ∧
    (joystickAxisEvent (joystickAxisEvent sampleCapture 0 30000).1 0 0).1.stick
      EVENT_JOY_AXIS 0 AXIS_CENTERED = 40 ∧
    (joystickAxisEvent (joystickAxisEvent sampleCapture 0 30000).1 0 0).2 = [(7, 32)] :=
  ⟨by decide,
    (axis_capture_commit sampleCapture 0 30000 0 (by decide) rfl rfl (by decide) (by decide)).2.2.2.2.2.2.1,
    by decide,
    (axis_capture_commit sampleCapture 0 30000 0 (by decide) rfl rfl (by decide)
      (by decide)).2.2.2.2.2.2.2.2.2.2.1 7 rfl⟩

/-! ## Hat, capture path -/

theorem hatActiveValue_idle (c : Controller) (hat : Nat)
    (hu : c.active EVENT_JOY_HAT hat SDL_HAT_UP = 0)
    (hr : c.active EVENT_JOY_HAT hat SDL_HAT_RIGHT = 0)
    (hd : c.active EVENT_JOY_HAT hat SDL_HAT_DOWN = 0)
    (hl : c.active EVENT_JOY_HAT hat SDL_HAT_LEFT = 0) : hatActiveValue c hat = 0 := by
  unfold hatActiveValue
  rw [if_neg (not_not.mpr hu), if_neg (not_not.mpr hr), if_neg (not_not.mpr hd),
    if_neg (not_not.mpr hl)]

/-- With a capture active and no direction of the hat armed, the handler only
records `active[hat][value] = keyToMap`. -/
theorem hat_capture_arm_eq (c : Controller) (hat value : Nat) (hm : c.keyToMap ≠ 0)
    (ha : hatActiveValue c hat = 0) :
    joystickHatEvent c hat value =
      ({ c with active := (Mappings.set c.active EVENT_JOY_HAT hat value c.keyToMap) }, []) := by
  unfold joystickHatEvent
  simp only [hm, ne_eq, not_false_eq_true, if_true, ha, not_true_eq_false, and_false, if_false]

/-- The armed direction of a hat, when there is one, is up, right, down or
left, and its armed value is not zero. -/
theorem hatActiveValue_armed (c : Controller) (hat : Nat) (ha : hatActiveValue c hat ≠ 0) :
    (hatActiveValue c hat = SDL_HAT_UP ∨ hatActiveValue c hat = SDL_HAT_RIGHT ∨
      hatActiveValue c hat = SDL_HAT_DOWN ∨ hatActiveValue c hat = SDL_HAT_LEFT) ∧
    c.active EVENT_JOY_HAT hat (hatActiveValue c hat) ≠ 0 := by
  unfold hatActiveValue at ha ⊢
  by_cases hu : c.active EVENT_JOY_HAT hat SDL_HAT_UP = 0
  · rw [if_neg (not_not.mpr hu)] at ha ⊢
    by_cases hr : c.active EVENT_JOY_HAT hat SDL_HAT_RIGHT = 0
    · rw [if_neg (not_not.mpr hr)] at ha ⊢
      by_cases hd : c.active EVENT_JOY_HAT hat SDL_HAT_DOWN = 0
      · rw [if_neg (not_not.mpr hd)] at ha ⊢
        by_cases hl : c.active EVENT_JOY_HAT hat SDL_HAT_LEFT = 0
        · rw [if_neg (not_not.mpr hl)] at ha
          exact absurd rfl ha
        · rw [if_pos hl]
          exact ⟨Or.inr (Or.inr (Or.inr rfl)), hl⟩
      · rw [if_pos hd]
        exact ⟨Or.inr (Or.inr (Or.inl rfl)), hd⟩
    · rw [if_pos hr]
      exact ⟨Or.inr (Or.inl rfl), hr⟩
  · rw [if_pos hu]
    exact ⟨Or.inl rfl, hu⟩

/-- With a capture active and a direction `d` of the hat armed, a centered event
writes `table[hat][d] = active[hat][d]`, recomputes the centered mask, cancels
the capture and notifies the owner. -/
theorem hat_capture_commit_eq (c : Controller) (hat : Nat) (hm : c.keyToMap ≠ 0)
    (ha : hatActiveValue c hat ≠ 0) :
    (joystickHatEvent c hat SDL_HAT_CENTERED).1 =
      cancelMapping { c with stick := (joystickHatEvent c hat SDL_HAT_CENTERED).1.stick } ∧
    (joystickHatEvent c hat SDL_HAT_CENTERED).2 = notify c.owner c.keyToMap ∧
    (joystickHatEvent c hat SDL_HAT_CENTERED).1.stick EVENT_JOY_HAT hat (hatActiveValue c hat) =
      c.active EVENT_JOY_HAT hat (hatActiveValue c hat) ∧
    (joystickHatEvent c hat SDL_HAT_CENTERED).1.stick EVENT_JOY_HAT hat SDL_HAT_CENTERED =
      (joystickHatEvent c hat SDL_HAT_CENTERED).1.stick EVENT_JOY_HAT hat SDL_HAT_UP |||
      (joystickHatEvent c hat SDL_HAT_CENTERED).1.stick EVENT_JOY_HAT hat SDL_HAT_RIGHT |||
      (joystickHatEvent c hat SDL_HAT_CENTERED).1.stick EVENT_JOY_HAT hat SDL_HAT_DOWN |||
      (joystickHatEvent c hat SDL_HAT_CENTERED).1.stick EVENT_JOY_HAT hat SDL_HAT_LEFT ∧
    (∀ e i v, ¬ (e = EVENT_JOY_HAT ∧ i = hat ∧ (v = hatActiveValue c hat ∨ v = SDL_HAT_CENTERED)) →
      (joystickHatEvent c hat SDL_HAT_CENTERED).1.stick e i v = c.stick e i v) := by
  have hd := (hatActiveValue_armed c hat ha).1
  refine ⟨?_, ?_, ?_, ?_, ?_⟩
  · unfold joystickHatEvent
    simp only [hm, ne_eq, not_false_eq_true, if_true, ha, and_self]
    rfl
  · unfold joystickHatEvent
    simp only [hm, ne_eq, not_false_eq_true, if_true, ha, and_self]
  · unfold joystickHatEvent
    simp only [hm, ne_eq, not_false_eq_true, if_true, ha, and_self]
    rcases hd with h | h | h | h <;>
      simp [cancelMapping, Mappings.set, h, SDL_HAT_CENTERED, SDL_HAT_UP, SDL_HAT_RIGHT,
        SDL_HAT_DOWN, SDL_HAT_LEFT]
  · unfold joystickHatEvent
    simp only [hm, ne_eq, not_false_eq_true, if_true, ha, and_self]
    rcases hd with h | h | h | h <;>
      simp [cancelMapping, Mappings.set, h, SDL_HAT_CENTERED, SDL_HAT_UP, SDL_HAT_RIGHT,
        SDL_HAT_DOWN, SDL_HAT_LEFT]
  · intro e i v hne
    unfold joystickHatEvent
    simp only [hm, ne_eq, not_false_eq_true, if_true, ha, and_self]
    simp only [cancelMapping, Mappings.set]
    by_cases h3 : e = EVENT_JOY_HAT ∧ i = hat ∧ v = SDL_HAT_CENTERED
    · exact absurd ⟨h3.1, h3.2.1, Or.inr h3.2.2⟩ hne
    · by_cases h4 : e = EVENT_JOY_HAT ∧ i = hat ∧ v = hatActiveValue c hat
      · exact absurd ⟨h4.1, h4.2.1, Or.inl h4.2.2⟩ hne
      · simp only [h3, h4, if_false]

/-- Arming `active[hat][v]` on an idle hat: the armed direction afterwards is
`v` when `v` is a single direction, and none otherwise. -/
theorem hatActiveValue_set (c : Controller) (hat v : Nat) (hm : c.keyToMap ≠ 0)
    (hu : c.active EVENT_JOY_HAT hat SDL_HAT_UP = 0)
    (hr : c.active EVENT_JOY_HAT hat SDL_HAT_RIGHT = 0)
    (hd : c.active EVENT_JOY_HAT hat SDL_HAT_DOWN = 0)
    (hl : c.active EVENT_JOY_HAT hat SDL_HAT_LEFT = 0) :
    hatActiveValue { c with active := (Mappings.set c.active EVENT_JOY_HAT hat v c.keyToMap) } hat =
      if v = SDL_HAT_UP ∨ v = SDL_HAT_RIGHT ∨ v = SDL_HAT_DOWN ∨ v = SDL_HAT_LEFT then v else 0 := by
  unfold hatActiveValue
  simp only [Mappings.set, true_and]
  by_cases h1 : SDL_HAT_UP = v
  · subst h1
    simp [hm]
  · by_cases h2 : SDL_HAT_RIGHT = v
    · subst h2
      simp [hm, hu, h1]
    · by_cases h3 : SDL_HAT_DOWN = v
      · subst h3
        simp [hm, hu, hr, h1, h2]
      · by_cases h4 : SDL_HAT_LEFT = v
        · subst h4
          simp [hm, hu, hr, hd, h1, h2, h3]
        · simp [hu, hr, hd, hl, h1, h2, h3, h4, Ne.symm h1, Ne.symm h2, Ne.symm h3, Ne.symm h4]

/-- C7: during a capture (`keyToMap ≠ 0`) on a hat with no direction armed, a raw
value equal to a single direction `d` (up, right, down or left) arms `d` without
changing the table, and a following centered event commits:
`table[h][d] = keyToMap`, `table[h][centered] = up|right|down|left` of the
updated row, every other entry unchanged, `doneMapping` called on the owner with
the target mask, capture cleared.  Any other raw value (a diagonal among them)
arms no direction, and a following centered event commits nothing: the table
and the capture stay as they are and no callback is made. -/
theorem hat_capture_commit (c : Controller) (hat : Nat) (hm : c.keyToMap ≠ 0)
    (hu : c.active EVENT_JOY_HAT hat SDL_HAT_UP = 0)
    (hr : c.active EVENT_JOY_HAT hat SDL_HAT_RIGHT = 0)
    (hd : c.active EVENT_JOY_HAT hat SDL_HAT_DOWN = 0)
    (hl : c.active EVENT_JOY_HAT hat SDL_HAT_LEFT = 0) :
    (∀ d, d = SDL_HAT_UP ∨ d = SDL_HAT_RIGHT ∨ d = SDL_HAT_DOWN ∨ d = SDL_HAT_LEFT →
      let r1 := joystickHatEvent c hat d
      let r2 := joystickHatEvent r1.1 hat SDL_HAT_CENTERED
      r1.1.stick = c.stick ∧ r1.2 = [] ∧ r1.1.keyToMap = c.keyToMap ∧ r1.1.owner = c.owner ∧
      hatActiveValue r1.1 hat = d ∧
      r2.1.stick EVENT_JOY_HAT hat d = c.keyToMap ∧
      r2.1.stick EVENT_JOY_HAT hat SDL_HAT_CENTERED =
        r2.1.stick EVENT_JOY_HAT hat SDL_HAT_UP ||| r2.1.stick EVENT_JOY_HAT hat SDL_HAT_RIGHT |||
        r2.1.stick EVENT_JOY_HAT hat SDL_HAT_DOWN ||| r2.1.stick EVENT_JOY_HAT hat SDL_HAT_LEFT ∧
      (∀ e i v, ¬ (e = EVENT_JOY_HAT ∧ i = hat ∧ (v = d ∨ v = SDL_HAT_CENTERED)) →
        r2.1.stick e i v = c.stick e i v) ∧
      r2.2 = notify c.owner c.keyToMap ∧
      (∀ o, c.owner = some o → r2.2 = [(o, c.keyToMap)]) ∧
      r2.1.keyToMap = 0 ∧ r2.1.owner = none ∧ (∀ e i v, r2.1.active e i v = 0)) ∧
    (∀ v, ¬ (v = SDL_HAT_UP ∨ v = SDL_HAT_RIGHT ∨ v = SDL_HAT_DOWN ∨ v = SDL_HAT_LEFT) →
      let r1 := joystickHatEvent c hat v
      let r2 := joystickHatEvent r1.1 hat SDL_HAT_CENTERED
      r1.1.stick = c.stick ∧ r1.2 = [] ∧ hatActiveValue r1.1 hat = 0 ∧
      r2.1.stick = c.stick ∧ r2.2 = [] ∧ r2.1.keyToMap = c.keyToMap ∧ r2.1.owner = c.owner ∧
      hatActiveValue r2.1 hat = 0) := by
  have ha : hatActiveValue c hat = 0 := hatActiveValue_idle c hat hu hr hd hl
  constructor
  · intro d hdir r1 r2
    have e1 : r1 = ({ c with active := (Mappings.set c.active EVENT_JOY_HAT hat d c.keyToMap) }, []) :=
      hat_capture_arm_eq c hat d hm ha
    have hact : hatActiveValue r1.1 hat = d := by
      rw [e1, hatActiveValue_set c hat d hm hu hr hd hl, if_pos hdir]
    have hd0 : d ≠ 0 := by
      rcases hdir with h | h | h | h <;> rw [h] <;> decide
    have hm1 : r1.1.keyToMap ≠ 0 := by rw [e1]; exact hm
    have hcom := hat_capture_commit_eq r1.1 hat hm1 (by rw [hact]; exact hd0)
    rw [hact] at hcom
    obtain ⟨c1, c2, c3, c4, c5⟩ := hcom
    have hr1s : r1.1.stick = c.stick := by rw [e1]
    have hr1k : r1.1.keyToMap = c.keyToMap := by rw [e1]
    have hr1o : r1.1.owner = c.owner := by rw [e1]
    have hr1a : r1.1.active EVENT_JOY_HAT hat d = c.keyToMap := by
      rw [e1]
      simp [Mappings.set]
    refine ⟨hr1s, by rw [e1], hr1k, hr1o, hact, ?_, c4, ?_, ?_, ?_, ?_, ?_, ?_⟩
    · exact c3.trans hr1a
    · intro e i v hne
      rw [← hr1s]
      exact c5 e i v hne
    · rw [← hr1o, ← hr1k]
      exact c2
    · intro o ho
      have : r2.2 = notify r1.1.owner r1.1.keyToMap := c2
      rw [this, hr1o, hr1k, ho]
      rfl
    · have : r2.1 = _ := c1
      rw [this]
      rfl
    · have : r2.1 = _ := c1
      rw [this]
      rfl
    · intro e i v
      have : r2.1 = _ := c1
      rw [this]
      rfl
  · intro v hv r1 r2
    have e1 : r1 = ({ c with active := (Mappings.set c.active EVENT_JOY_HAT hat v c.keyToMap) }, []) :=
      hat_capture_arm_eq c hat v hm ha
    have hact : hatActiveValue r1.1 hat = 0 := by
      rw [e1, hatActiveValue_set c hat v hm hu hr hd hl, if_neg hv]
    have hm1 : r1.1.keyToMap ≠ 0 := by rw [e1]; exact hm
    have e2 : r2 = _ := hat_capture_arm_eq r1.1 hat SDL_HAT_CENTERED hm1 hact
    have hz : ¬ (SDL_HAT_CENTERED = SDL_HAT_UP ∨ SDL_HAT_CENTERED = SDL_HAT_RIGHT ∨
        SDL_HAT_CENTERED = SDL_HAT_DOWN ∨ SDL_HAT_CENTERED = SDL_HAT_LEFT) := by decide
    have hv' : v ≠ SDL_HAT_UP ∧ v ≠ SDL_HAT_RIGHT ∧ v ≠ SDL_HAT_DOWN ∧ v ≠ SDL_HAT_LEFT := by
      refine ⟨?_, ?_, ?_, ?_⟩ <;> intro h <;> exact hv (by simp [h])
    have hact2 : hatActiveValue r2.1 hat = 0 := by
      rw [e2]
      have := hatActiveValue_set r1.1 hat SDL_HAT_CENTERED hm1
        (by rw [e1]; simp [Mappings.set, Ne.symm hv'.1, hu])
        (by rw [e1]; simp [Mappings.set, Ne.symm hv'.2.1, hr])
        (by rw [e1]; simp [Mappings.set, Ne.symm hv'.2.2.1, hd])
        (by rw [e1]; simp [Mappings.set, Ne.symm hv'.2.2.2, hl])
      rw [if_neg hz] at this
      exact this
    refine ⟨by rw [e1], by rw [e1], hact, ?_, by rw [e2], ?_, ?_, hact2⟩
    · rw [e2, e1]
    · rw [e2, e1]
    · rw [e2, e1]

/-- C7 at the sample capture (mask `32`, owner `7`): up then centered maps the
up slot of hat 0 to `32` and calls `doneMapping` once; the diagonal up|right
then centered commits nothing. -/
theorem hat_capture_commit_witness :
    sampleCapture.keyToMap ≠ 0 ∧
    (joystickHatEvent (joystickHatEvent sampleCapture 0 SDL_HAT_UP).1 0 SDL_HAT_CENTERED).1.stick
      EVENT_JOY_HAT 0 SDL_HAT_UP = 32 ∧
    (joystickHatEvent (joystickHatEvent sampleCapture 0 SDL_HAT_UP).1 0 SDL_HAT_CENTERED).2 =
      [(7, 32)] ∧
    (joystickHatEvent (joystickHatEvent sampleCapture 0 3).1 0 SDL_HAT_CENTERED).2 = [] ∧
    (joystickHatEvent (joystickHatEvent sampleCapture 0 3).1 0 SDL_HAT_CENTERED).1.keyToMap = 32 :=
  ⟨by decide,
    ((hat_capture_commit sampleCapture 0 (by decide) rfl rfl rfl rfl).1 SDL_HAT_UP
      (Or.inl rfl)).2.2.2.2.2.1,
    ((hat_capture_commit sampleCapture 0 (by decide) rfl rfl rfl rfl).1 SDL_HAT_UP
      (Or.inl rfl)).2.2.2.2.2.2.2.2.2.1 7 rfl,
    ((hat_capture_commit sampleCapture 0 (by decide) rfl rfl rfl rfl).2 3 (by decide)).2.2.2.2.1,
    ((hat_capture_commit sampleCapture 0 (by decide) rfl rfl rfl rfl).2 3 (by decide)).2.2.2.2.2.1⟩

/-! ## Button, capture path -/

/-- With a capture active and the button not armed, the handler only records
`active[button][state] = keyToMap`. -/
theorem button_capture_arm_eq (c : Controller) (button st : Nat) (hm : c.keyToMap ≠ 0)
    (ha : c.active EVENT_JOY_BUTTON button SDL_PRESSED = 0) :
    joystickButtonEvent c button st =
      ({ c with active := (Mappings.set c.active EVENT_JOY_BUTTON button st c.keyToMap) }, []) := by
  unfold joystickButtonEvent
  simp only [hm, ne_eq, not_false_eq_true, if_true, ha, bne_self_eq_false, Bool.false_eq_true,
    and_false, if_false]

/-- With a capture active and the button armed, a release writes both slots of
the button, cancels the capture and notifies the owner. -/
theorem button_capture_commit_eq (c : Controller) (button : Nat) (hm : c.keyToMap ≠ 0)
    (ha : c.active EVENT_JOY_BUTTON button SDL_PRESSED ≠ 0) :
    joystickButtonEvent c button SDL_RELEASED =
      (cancelMapping { c with stick :=
          (Mappings.set (c.stick.set EVENT_JOY_BUTTON button SDL_RELEASED c.keyToMap)
            EVENT_JOY_BUTTON button SDL_PRESSED c.keyToMap) },
        notify c.owner c.keyToMap) := by
  have hb : (c.active EVENT_JOY_BUTTON button SDL_PRESSED != 0) = true := by
    simp [ha]
  unfold joystickButtonEvent
  simp only [hm, ne_eq, not_false_eq_true, if_true, hb, and_self]

/-- C8: during a capture (`keyToMap ≠ 0`) with button `b` not armed, a press arms
`b` and leaves the table and the capture as they are; a following release
commits: `table[b][pressed] = table[b][released] = keyToMap`, every other entry
unchanged, `doneMapping` called on the owner with the target mask, capture
cleared.  A release of `b` while it is not armed commits nothing: the table and
the capture stay as they are, `b` stays unarmed and no callback is made. -/
theorem button_capture_commit (c : Controller) (button : Nat) (hm : c.keyToMap ≠ 0)
    (ha : c.active EVENT_JOY_BUTTON button SDL_PRESSED = 0) :
    let r1 := joystickButtonEvent c button SDL_PRESSED
    let r2 := joystickButtonEvent r1.1 button SDL_RELEASED
    let r3 := joystickButtonEvent c button SDL_RELEASED
    (r1.1.stick = c.stick ∧ r1.2 = [] ∧ r1.1.keyToMap = c.keyToMap ∧ r1.1.owner = c.owner ∧
      r1.1.active EVENT_JOY_BUTTON button SDL_PRESSED = c.keyToMap) ∧
    (r2.1.stick EVENT_JOY_BUTTON button SDL_PRESSED = c.keyToMap ∧
      r2.1.stick EVENT_JOY_BUTTON button SDL_RELEASED = c.keyToMap ∧
      (∀ e i v, ¬ (e = EVENT_JOY_BUTTON ∧ i = button ∧ (v = SDL_PRESSED ∨ v = SDL_RELEASED)) →
        r2.1.stick e i v = c.stick e i v) ∧
      r2.2 = notify c.owner c.keyToMap ∧
      (∀ o, c.owner = some o → r2.2 = [(o, c.keyToMap)]) ∧
      r2.1.keyToMap = 0 ∧ r2.1.owner = none ∧ (∀ e i v, r2.1.active e i v = 0)) ∧
    (r3.1.stick = c.stick ∧ r3.2 = [] ∧ r3.1.keyToMap = c.keyToMap ∧ r3.1.owner = c.owner ∧
      r3.1.active EVENT_JOY_BUTTON button SDL_PRESSED = 0) := by
  intro r1 r2 r3
  have e1 : r1 = _ := button_capture_arm_eq c button SDL_PRESSED hm ha
  have e3 : r3 = _ := button_capture_arm_eq c button SDL_RELEASED hm ha
  have harm : r1.1.active EVENT_JOY_BUTTON button SDL_PRESSED = c.keyToMap := by
    rw [e1]
    simp [Mappings.set]
  have hm1 : r1.1.keyToMap ≠ 0 := by rw [e1]; exact hm
  have e2 : r2 = _ := button_capture_commit_eq r1.1 button hm1 (by rw [harm]; exact hm)
  refine ⟨⟨by rw [e1], by rw [e1], by rw [e1], by rw [e1], harm⟩, ⟨?_, ?_, ?_, ?_, ?_, ?_, ?_, ?_⟩,
    ⟨by rw [e3], by rw [e3], by rw [e3], by rw [e3], ?_⟩⟩
  · rw [e2, e1]
    simp [cancelMapping, Mappings.set]
  · rw [e2, e1]
    simp [cancelMapping, Mappings.set, SDL_PRESSED, SDL_RELEASED]
  · intro e i v hne
    rw [e2, e1]
    simp only [cancelMapping, Mappings.set]
    by_cases h3 : e = EVENT_JOY_BUTTON ∧ i = button ∧ v = SDL_PRESSED
    · exact absurd ⟨h3.1, h3.2.1, Or.inl h3.2.2⟩ hne
    · by_cases h4 : e = EVENT_JOY_BUTTON ∧ i = button ∧ v = SDL_RELEASED
      · exact absurd ⟨h4.1, h4.2.1, Or.inr h4.2.2⟩ hne
      · simp only [h3, h4, if_false]
  · rw [e2, e1]
  · intro o ho
    rw [e2, e1]
    simp only [ho]
    rfl
  · rw [e2]
    rfl
  · rw [e2]
    rfl
  · intro e i v
    rw [e2]
    rfl
  · rw [e3]
    have hne : ¬ SDL_PRESSED = SDL_RELEASED := by decide
    simp only [Mappings.set, hne, and_false, if_false]
    exact ha

/-- C8 at the sample capture (mask `32`, owner `7`): press then release of button
3 maps both of its slots to `32` and calls `doneMapping` once; a release
without a press makes no call. -/
theorem button_capture_commit_witness :
    sampleCapture.keyToMap ≠ 0 ∧
    (joystickButtonEvent (joystickButtonEvent sampleCapture 3 SDL_PRESSED).1 3 SDL_RELEASED).1.stick
      EVENT_JOY_BUTTON 3 SDL_PRESSED = 32 ∧
    (joystickButtonEvent (joystickButtonEvent sampleCapture 3 SDL_PRESSED).1 3 SDL_RELEASED).2 =
      [(7, 32)] ∧
    (joystickButtonEvent sampleCapture 3 SDL_RELEASED).2 = [] :=
  ⟨by decide,
    (button_capture_commit sampleCapture 3 (by decide) rfl).2.1.1,
    (button_capture_commit sampleCapture 3 (by decide) rfl).2.1.2.2.2.2.1 7 rfl,
    (button_capture_commit sampleCapture 3 (by decide) rfl).2.2.2.1⟩

/-! ## Keyboard, capture path -/

/-- The test `m & ( 1u << i )` of the source is the test of bit `i` of `m`. -/
theorem and_one_shiftLeft_ne_zero (m i : Nat) : m &&& (1 <<< i) ≠ 0 ↔ m.testBit i = true := by
  rw [Nat.one_shiftLeft, Nat.and_two_pow]
  cases m.testBit i <;> simp

/-- The first `n` rounds of the loop of `keyboardEvent`, slot by slot. -/
theorem keyboardBindSlot_fold (vkCode : Nat) (name : String) (c : Controller) (n : Nat) :
    (List.range n).foldl (keyboardBindSlot vkCode name) c =
      { c with
        codes := fun j =>
          if j < n then
            (if c.keyToMap &&& (1 <<< j) ≠ 0 then vkCode
              else if c.codes j = vkCode then 0 else c.codes j)
          else c.codes j
        names := fun j =>
          if j < n then
            (if c.keyToMap &&& (1 <<< j) ≠ 0 then name
              else if c.codes j = vkCode then "" else c.names j)
          else c.names j } := by
  induction n with
  | zero => simp
  | succ n ih =>
    rw [List.range_succ, List.foldl_append, ih]
    simp only [List.foldl_cons, List.foldl_nil, keyboardBindSlot, Nat.lt_irrefl, if_false]
    by_cases hb : c.keyToMap &&& (1 <<< n) ≠ 0
    · rw [if_pos hb]
      congr 1
      · funext j
        by_cases hj : j = n
        · subst hj
          simp [setSlot, hb]
        · by_cases hlt : j < n
          · simp [setSlot, hj, hlt, Nat.lt_succ_of_lt hlt]
          · have : ¬ j < n + 1 := by omega
            simp [setSlot, hj, hlt, this]
      · funext j
        by_cases hj : j = n
        · subst hj
          simp [setSlot, hb]
        · by_cases hlt : j < n
          · simp [setSlot, hj, hlt, Nat.lt_succ_of_lt hlt]
          · have : ¬ j < n + 1 := by omega
            simp [setSlot, hj, hlt, this]
    · rw [if_neg hb]
      by_cases hc : c.codes n = vkCode
      · rw [if_pos hc]
        congr 1
        · funext j
          by_cases hj : j = n
          · subst hj
            simp [setSlot, hb, hc]
          · by_cases hlt : j < n
            · simp [setSlot, hj, hlt, Nat.lt_succ_of_lt hlt]
            · have : ¬ j < n + 1 := by omega
              simp [setSlot, hj, hlt, this]
        · funext j
          by_cases hj : j = n
          · subst hj
            simp [setSlot, hb, hc]
          · by_cases hlt : j < n
            · simp [setSlot, hj, hlt, Nat.lt_succ_of_lt hlt]
            · have : ¬ j < n + 1 := by omega
              simp [setSlot, hj, hlt, this]
      · rw [if_neg hc]
        congr 1
        · funext j
          by_cases hj : j = n
          · subst hj
            simp [hb, hc]
          · by_cases hlt : j < n
            · simp [hlt, Nat.lt_succ_of_lt hlt]
            · have : ¬ j < n + 1 := by omega
              simp [hlt, this]
        · funext j
          by_cases hj : j = n
          · subst hj
            simp [hb, hc]
          · by_cases hlt : j < n
            · simp [hlt, Nat.lt_succ_of_lt hlt]
            · have : ¬ j < n + 1 := by omega
              simp [hlt, this]

/-- The keyboard handler on a key-down with a non-escape code. -/
theorem keyboard_bind_eq (getVKeyName : Nat → Nat → Bool → String) (c : Controller)
    (vkCode scanCode : Nat) (isExtended : Bool) (hesc : vkCode ≠ VK_ESCAPE) :
    keyboardEvent getVKeyName c vkCode scanCode isExtended true =
      (cancelMapping ((List.range 32).foldl
          (keyboardBindSlot vkCode (getVKeyName vkCode scanCode isExtended)) c),
        notify c.owner c.keyToMap) := by
  unfold keyboardEvent
  simp only [Bool.not_true, Bool.false_eq_true, false_and, if_false, ne_eq, hesc,
    not_false_eq_true, if_true]

/-- C9: during a keyboard capture with target mask `m = keyToMap` (for every `m`,
the non-zero ones among them), a key-down with a non-escape code `c` binds every
slot `i < 32` whose bit is in `m` to `c` and its name, unbinds (code `0`, empty
name) every slot not in `m` that held `c`, and leaves every other slot as it
was; so when `c ≠ 0` the slots that hold `c` afterwards are exactly the bits of
`m`.  `doneMapping` is called on the owner with `m`, the capture is cleared, and
the joystick table and `state` are unchanged. -/
theorem keyboard_capture_bind (getVKeyName : Nat → Nat → Bool → String) (c : Controller)
    (vkCode scanCode : Nat) (isExtended : Bool) (hesc : vkCode ≠ VK_ESCAPE) :
    let r := keyboardEvent getVKeyName c vkCode scanCode isExtended true
    (∀ i, i < 32 → c.keyToMap.testBit i = true →
      r.1.codes i = vkCode ∧ r.1.names i = getVKeyName vkCode scanCode isExtended) ∧
    (∀ i, i < 32 → c.keyToMap.testBit i = false → c.codes i = vkCode →
      r.1.codes i = 0 ∧ r.1.names i = "") ∧
    (∀ i, i < 32 → c.keyToMap.testBit i = false → c.codes i ≠ vkCode →
      r.1.codes i = c.codes i ∧ r.1.names i = c.names i) ∧
    (vkCode ≠ 0 → ∀ i, i < 32 → (r.1.codes i = vkCode ↔ c.keyToMap.testBit i = true)) ∧
    r.2 = notify c.owner c.keyToMap ∧
    (∀ o, c.owner = some o → r.2 = [(o, c.keyToMap)]) ∧
    r.1.keyToMap = 0 ∧ r.1.owner = none ∧ (∀ e i v, r.1.active e i v = 0) ∧
    r.1.stick = c.stick ∧ r.1.state = c.state := by
  intro r
  have e : r = _ := keyboard_bind_eq getVKeyName c vkCode scanCode isExtended hesc
  rw [keyboardBindSlot_fold] at e
  have hcode : ∀ i, i < 32 → r.1.codes i =
      if c.keyToMap.testBit i = true then vkCode
      else if c.codes i = vkCode then 0 else c.codes i := by
    intro i hi
    rw [e]
    simp only [cancelMapping, hi, if_true, and_one_shiftLeft_ne_zero]
  have hname : ∀ i, i < 32 → r.1.names i =
      if c.keyToMap.testBit i = true then getVKeyName vkCode scanCode isExtended
      else if c.codes i = vkCode then "" else c.names i := by
    intro i hi
    rw [e]
    simp only [cancelMapping, hi, if_true, and_one_shiftLeft_ne_zero]
  refine ⟨?_, ?_, ?_, ?_, by rw [e], ?_, by rw [e]; rfl, by rw [e]; rfl, ?_, by rw [e]; rfl,
    by rw [e]; rfl⟩
  · intro i hi hb
    rw [hcode i hi, hname i hi, if_pos hb, if_pos hb]
    exact ⟨rfl, rfl⟩
  · intro i hi hb hc
    have hb' : ¬ c.keyToMap.testBit i = true := by simp [hb]
    rw [hcode i hi, hname i hi, if_neg hb', if_neg hb', if_pos hc, if_pos hc]
    exact ⟨rfl, rfl⟩
  · intro i hi hb hc
    have hb' : ¬ c.keyToMap.testBit i = true := by simp [hb]
    rw [hcode i hi, hname i hi, if_neg hb', if_neg hb', if_neg hc, if_neg hc]
    exact ⟨rfl, rfl⟩
  · intro h0 i hi
    rw [hcode i hi]
    by_cases hb : c.keyToMap.testBit i = true
    · simp [hb]
    · by_cases hc : c.codes i = vkCode
      · simp [hb, hc, Ne.symm h0]
      · simp [hb, hc]
  · intro o ho
    rw [e, ho]
    rfl
  · intro e' i v
    rw [e]
    rfl

/-- C9 at the sample keyboard (mask `9`, bits 0 and 3; slot 5 holds code `66`):
one key-down with code `66` binds slots 0 and 3 to it, unbinds slot 5 and calls
`doneMapping` once with mask `9`. -/
theorem keyboard_capture_bind_witness :
    sampleKeyboard.keyToMap ≠ 0 ∧ 66 ≠ VK_ESCAPE ∧
    (keyboardEvent sampleKeyName sampleKeyboard 66 0 false true).1.codes 0 = 66 ∧
    (keyboardEvent sampleKeyName sampleKeyboard 66 0 false true).1.codes 3 = 66 ∧
    (keyboardEvent sampleKeyName sampleKeyboard 66 0 false true).1.codes 5 = 0 ∧
    (keyboardEvent sampleKeyName sampleKeyboard 66 0 false true).2 = [(7, 9)] :=
  ⟨by decide, by decide,
    ((keyboard_capture_bind sampleKeyName sampleKeyboard 66 0 false (by decide)).1
      0 (by decide) (by decide)).1,
    ((keyboard_capture_bind sampleKeyName sampleKeyboard 66 0 false (by decide)).1
      3 (by decide) (by decide)).1,
    ((keyboard_capture_bind sampleKeyName sampleKeyboard 66 0 false (by decide)).2.1
      5 (by decide) (by decide) rfl).1,
    (keyboard_capture_bind sampleKeyName sampleKeyboard 66 0 false
      (by decide)).2.2.2.2.2.1 7 rfl⟩

/-- C10: during a keyboard capture (`keyToMap ≠ 0`), a key-down with the escape
code leaves every keyboard slot (code and name) unchanged, calls `doneMapping`
on the owner once, with the mask `0`, and clears the capture (`keyToMap = 0`,
owner cleared, armed values `0`); the joystick table and `state` are unchanged.
A key-up during the capture does nothing at all. -/
theorem keyboard_capture_escape (getVKeyName : Nat → Nat → Bool → String) (c : Controller)
    (scanCode : Nat) (isExtended : Bool) (hm : c.keyToMap ≠ 0) :
    let r := keyboardEvent getVKeyName c VK_ESCAPE scanCode isExtended true
    r.1.codes = c.codes ∧ r.1.names = c.names ∧
    r.2 = notify c.owner 0 ∧
    (∀ o, c.owner = some o → r.2 = [(o, 0)]) ∧
    r.1.keyToMap = 0 ∧ r.1.owner = none ∧ (∀ e i v, r.1.active e i v = 0) ∧
    r.1.stick = c.stick ∧ r.1.state = c.state ∧
    keyboardEvent getVKeyName c VK_ESCAPE scanCode isExtended false = (c, []) := by
  intro r
  have e : r = (cancelMapping c, notify c.owner 0) := by
    show keyboardEvent getVKeyName c VK_ESCAPE scanCode isExtended true = _
    unfold keyboardEvent
    simp
  refine ⟨by rw [e]; rfl, by rw [e]; rfl, by rw [e], ?_, by rw [e]; rfl, by rw [e]; rfl, ?_,
    by rw [e]; rfl, by rw [e]; rfl, ?_⟩
  · intro o ho
    rw [e, ho]
    rfl
  · intro e' i v
    rw [e]
    rfl
  · unfold keyboardEvent
    simp [hm]

/-- C10 at the sample keyboard: escape keeps slots 0 and 5 bound to `65` and
`66` and calls `doneMapping` once with mask `0`. -/
theorem keyboard_capture_escape_witness :
    sampleKeyboard.keyToMap ≠ 0 ∧
    (keyboardEvent sampleKeyName sampleKeyboard VK_ESCAPE 1 false true).1.codes =
      sampleKeyboard.codes ∧
    (keyboardEvent sampleKeyName sampleKeyboard VK_ESCAPE 1 false true).2 = [(7, 0)] ∧
    (keyboardEvent sampleKeyName sampleKeyboard VK_ESCAPE 1 false true).1.keyToMap = 0 :=
  ⟨by decide,
    (keyboard_capture_escape sampleKeyName sampleKeyboard 1 false (by decide)).1,
    (keyboard_capture_escape sampleKeyName sampleKeyboard 1 false (by decide)).2.2.2.1 7 rfl,
    (keyboard_capture_escape sampleKeyName sampleKeyboard 1 false (by decide)).2.2.2.2.1⟩

/-! ## The table invariants -/

theorem axisActiveValue_cases (c : Controller) (axis : Nat) :
    axisActiveValue c axis = 0 ∨ axisActiveValue c axis = AXIS_POSITIVE ∨
      axisActiveValue c axis = AXIS_NEGATIVE := by
  unfold axisActiveValue
  split
  · exact Or.inr (Or.inl rfl)
  · split
    · exact Or.inr (Or.inr rfl)
    · exact Or.inl rfl

/-- The axis handler leaves the table as it is unless it commits. -/
theorem axis_stick_unchanged (c : Controller) (axis : Nat) (raw : Int)
    (h : ¬ (c.keyToMap ≠ 0 ∧ axisActiveValue c axis ≠ 0 ∧ axisValue (c.deadzones axis) raw = 0)) :
    (joystickAxisEvent c axis raw).1.stick = c.stick := by
  unfold joystickAxisEvent
  by_cases hm : c.keyToMap = 0
  · simp only [hm, ne_eq, not_true_eq_false, if_false]
  · by_cases ha : axisActiveValue c axis = 0
    · simp only [hm, ne_eq, not_false_eq_true, if_true, ha, not_true_eq_false, and_false, if_false]
    · have hv : ¬ axisValue (c.deadzones axis) raw = 0 := fun hv => h ⟨hm, ha, hv⟩
      simp only [hm, ne_eq, not_false_eq_true, if_true, ha, hv, false_and, if_false]

/-- The hat handler leaves the table as it is unless it commits. -/
theorem hat_stick_unchanged (c : Controller) (hat value : Nat)
    (h : ¬ (c.keyToMap ≠ 0 ∧ hatActiveValue c hat ≠ 0 ∧ value = SDL_HAT_CENTERED)) :
    (joystickHatEvent c hat value).1.stick = c.stick := by
  unfold joystickHatEvent
  by_cases hm : c.keyToMap = 0
  · simp only [hm, ne_eq, not_true_eq_false, if_false]
  · by_cases ha : hatActiveValue c hat = 0
    · simp only [hm, ne_eq, not_false_eq_true, if_true, ha, not_true_eq_false, and_false, if_false]
    · have hv : ¬ value = SDL_HAT_CENTERED := fun hv => h ⟨hm, ha, hv⟩
      simp only [hm, ne_eq, not_false_eq_true, if_true, ha, hv, false_and, if_false]

/-- The button handler writes no axis row and no hat row. -/
theorem button_stick_other (c : Controller) (button st e i v : Nat) (he : e ≠ EVENT_JOY_BUTTON) :
    (joystickButtonEvent c button st).1.stick e i v = c.stick e i v := by
  unfold joystickButtonEvent
  by_cases hm : c.keyToMap = 0
  · simp only [hm, ne_eq, not_true_eq_false, if_false]
    split
    · rfl
    · split
      · rfl
      · split <;> rfl
  · simp only [hm, ne_eq, not_false_eq_true, if_true]
    by_cases ha : (c.active EVENT_JOY_BUTTON button SDL_PRESSED != 0) = true
    · by_cases hs : st = SDL_RELEASED
      · simp [ha, hs, cancelMapping, Mappings.set, he]
      · simp [ha, hs]
    · simp [ha]

/-- The keyboard handler does not touch the joystick table nor `state`. -/
theorem keyboard_stick_state (getVKeyName : Nat → Nat → Bool → String) (c : Controller)
    (vkCode scanCode : Nat) (isExtended isDown : Bool) :
    (keyboardEvent getVKeyName c vkCode scanCode isExtended isDown).1.stick = c.stick ∧
    (keyboardEvent getVKeyName c vkCode scanCode isExtended isDown).1.state = c.state := by
  unfold keyboardEvent
  split
  · exact ⟨rfl, rfl⟩
  · by_cases hesc : vkCode = VK_ESCAPE
    · simp [hesc, cancelMapping]
    · simp only [ne_eq, hesc, not_false_eq_true, if_true, keyboardBindSlot_fold]
      exact ⟨rfl, rfl⟩

/-- The axis handler preserves the table invariants: its commit recomputes the
centered mask of the row it writes. -/
theorem tableInvariant_axis (c : Controller) (axis : Nat) (raw : Int)
    (hinv : tableInvariant c.stick) : tableInvariant (joystickAxisEvent c axis raw).1.stick := by
  by_cases h : c.keyToMap ≠ 0 ∧ axisActiveValue c axis ≠ 0 ∧ axisValue (c.deadzones axis) raw = 0
  · rw [axis_capture_commit_eq c axis raw h.1 h.2.1 h.2.2]
    rcases axisActiveValue_cases c axis with hd | hd | hd
    · exact absurd hd h.2.1
    · rw [hd]
      constructor
      · intro a
        by_cases ha : a = axis
        · simp [cancelMapping, Mappings.set, ha, AXIS_CENTERED, AXIS_POSITIVE, AXIS_NEGATIVE]
        · simpa [cancelMapping, Mappings.set, ha, AXIS_CENTERED, AXIS_POSITIVE, AXIS_NEGATIVE]
            using hinv.1 a
      · intro h'
        simpa [cancelMapping, Mappings.set, EVENT_JOY_AXIS, EVENT_JOY_HAT] using hinv.2 h'
    · rw [hd]
      constructor
      · intro a
        by_cases ha : a = axis
        · simp [cancelMapping, Mappings.set, ha, AXIS_CENTERED, AXIS_POSITIVE, AXIS_NEGATIVE]
        · simpa [cancelMapping, Mappings.set, ha, AXIS_CENTERED, AXIS_POSITIVE, AXIS_NEGATIVE]
            using hinv.1 a
      · intro h'
        simpa [cancelMapping, Mappings.set, EVENT_JOY_AXIS, EVENT_JOY_HAT] using hinv.2 h'
  · rw [axis_stick_unchanged c axis raw h]
    exact hinv

/-- The hat handler preserves the table invariants: its commit recomputes the
centered mask of the row it writes. -/
theorem tableInvariant_hat (c : Controller) (hat value : Nat)
    (hinv : tableInvariant c.stick) : tableInvariant (joystickHatEvent c hat value).1.stick := by
  by_cases h : c.keyToMap ≠ 0 ∧ hatActiveValue c hat ≠ 0 ∧ value = SDL_HAT_CENTERED
  · obtain ⟨hm, ha, hv⟩ := h
    subst hv
    obtain ⟨-, -, -, c4, c5⟩ := hat_capture_commit_eq c hat hm ha
    have hdir := (hatActiveValue_armed c hat ha).1
    constructor
    · intro a
      rw [c5 _ _ _ (by simp [EVENT_JOY_AXIS, EVENT_JOY_HAT]),
        c5 _ _ _ (by simp [EVENT_JOY_AXIS, EVENT_JOY_HAT]),
        c5 _ _ _ (by simp [EVENT_JOY_AXIS, EVENT_JOY_HAT])]
      exact hinv.1 a
    · intro h'
      by_cases hh : h' = hat
      · rw [hh]
        exact c4
      · rw [c5 _ _ _ (by simp [hh]), c5 _ _ _ (by simp [hh]), c5 _ _ _ (by simp [hh]),
          c5 _ _ _ (by simp [hh]), c5 _ _ _ (by simp [hh])]
        exact hinv.2 h'
  · rw [hat_stick_unchanged c hat value h]
    exact hinv

/-- The button handler preserves the table invariants: it writes button rows
only. -/
theorem tableInvariant_button (c : Controller) (button st : Nat)
    (hinv : tableInvariant c.stick) :
    tableInvariant (joystickButtonEvent c button st).1.stick := by
  have ha : EVENT_JOY_AXIS ≠ EVENT_JOY_BUTTON := by decide
  have hh : EVENT_JOY_HAT ≠ EVENT_JOY_BUTTON := by decide
  constructor
  · intro a
    rw [button_stick_other c button st _ _ _ ha, button_stick_other c button st _ _ _ ha,
      button_stick_other c button st _ _ _ ha]
    exact hinv.1 a
  · intro h'
    rw [button_stick_other c button st _ _ _ hh, button_stick_other c button st _ _ _ hh,
      button_stick_other c button st _ _ _ hh, button_stick_other c button st _ _ _ hh,
      button_stick_other c button st _ _ _ hh]
    exact hinv.2 h'

/-- Every event, `startMapping` and `cancelMapping` preserve the table
invariants. -/
theorem tableInvariant_preserved (getVKeyName : Nat → Nat → Bool → String) (c : Controller)
    (hinv : tableInvariant c.stick) :
    (∀ e, tableInvariant (joystickEvent c e).1.stick) ∧
    (∀ vkCode scanCode isExtended isDown,
      tableInvariant (keyboardEvent getVKeyName c vkCode scanCode isExtended isDown).1.stick) ∧
    (∀ owner key, tableInvariant (startMapping c owner key).stick) ∧
    tableInvariant (cancelMapping c).stick := by
  refine ⟨?_, ?_, ?_, hinv⟩
  · intro e
    cases e with
    | axis a raw => exact tableInvariant_axis c a raw hinv
    | hat h v => exact tableInvariant_hat c h v hinv
    | button b st => exact tableInvariant_button c b st hinv
  · intro vkCode scanCode isExtended isDown
    rw [(keyboard_stick_state getVKeyName c vkCode scanCode isExtended isDown).1]
    exact hinv
  · intro owner key
    exact hinv

theorem tableInvariant_sampleTable : tableInvariant sampleTable := by
  constructor
  · intro a
    by_cases ha : a = 0
    · subst ha
      decide
    · simp [sampleTable, ha, EVENT_JOY_AXIS, EVENT_JOY_HAT, EVENT_JOY_BUTTON]
  · intro h
    by_cases hh : h = 0
    · subst hh
      decide
    · simp [sampleTable, hh, EVENT_JOY_AXIS, EVENT_JOY_HAT, EVENT_JOY_BUTTON]

/-- C11, the code at the failing input: the sample table satisfies the table
invariants, and `clearMapping ( 8 )` (the left bit) zeroes the centered mask of
hat 0 together with its left slot while up, right and down stay mapped, so
`centered = 0` and `up | right | down | left = 7`: the invariants are broken.
On the table that is left, a live up event on hat 0 sets a bit of `state` that
the following centered event does not clear. -/
theorem clearMapping_breaks_tableInvariant :
    tableInvariant sampleLive.stick ∧
    (clearMapping sampleLive 8).stick EVENT_JOY_HAT 0 SDL_HAT_CENTERED = 0 ∧
    (clearMapping sampleLive 8).stick EVENT_JOY_HAT 0 SDL_HAT_UP |||
      (clearMapping sampleLive 8).stick EVENT_JOY_HAT 0 SDL_HAT_RIGHT |||
      (clearMapping sampleLive 8).stick EVENT_JOY_HAT 0 SDL_HAT_DOWN |||
      (clearMapping sampleLive 8).stick EVENT_JOY_HAT 0 SDL_HAT_LEFT = 7 ∧
    ¬ tableInvariant (clearMapping sampleLive 8).stick ∧
    (joystickHatEvent (joystickHatEvent (clearMapping sampleLive 8) 0 SDL_HAT_UP).1 0
      SDL_HAT_CENTERED).1.state &&& 1 = 1 := by
  refine ⟨tableInvariant_sampleTable, by decide, by decide, ?_, by decide⟩
  intro hinv
  have h0 := hinv.2 0
  revert h0
  decide

/-! ## The GUID registry -/

theorem and_one_shiftLeft_beq_zero (m i : Nat) : (m &&& (1 <<< i) == 0) = !m.testBit i := by
  by_cases h : m &&& (1 <<< i) = 0
  · have : ¬ m.testBit i = true := fun hb => (and_one_shiftLeft_ne_zero m i).mpr hb h
    simp [h, this]
  · have : m.testBit i = true := (and_one_shiftLeft_ne_zero m i).mp h
    simp [h, this]

/-- The loop of the constructor finds the lowest clear bit below 32. -/
theorem freeIndex_eq_some (m i : Nat) :
    freeIndex m = some i ↔
      i < 32 ∧ m.testBit i = false ∧ ∀ j, j < i → m.testBit j = true := by
  unfold freeIndex
  rw [List.find?_range_eq_some]
  simp only [and_one_shiftLeft_beq_zero, Bool.not_eq_true', List.mem_range, Bool.not_not]
  constructor
  · rintro ⟨h1, h2, h3⟩
    exact ⟨h2, h1, h3⟩
  · rintro ⟨h1, h2, h3⟩
    exact ⟨h2, h1, h3⟩

/-- The loop of the constructor falls through when the 32 bits are all set. -/
theorem freeIndex_eq_none (m : Nat) :
    freeIndex m = none ↔ ∀ i, i < 32 → m.testBit i = true := by
  unfold freeIndex
  rw [List.find?_range_eq_none]
  simp only [and_one_shiftLeft_beq_zero, Bool.not_not]

theorem testBit_or_one_shiftLeft (m i k : Nat) :
    (m ||| 1 <<< i).testBit k = (m.testBit k || decide (k = i)) := by
  rw [Nat.testBit_or, Nat.one_shiftLeft, Nat.testBit_two_pow]
  by_cases h : i = k
  · simp [h]
  · simp [h, Ne.symm h]

/-- The constructor on a GUID that is not known. -/
theorem newJoystick_unknown (bits : InputBits) (reg : Registry) (c0 : Controller) (g : Nat)
    (h : reg g = none) :
    newJoystick bits reg c0 g =
      (reg.set g 1, Except.ok (initJoystick bits { c0 with guid := g, index := 0 })) := by
  unfold newJoystick
  simp only [h]

/-- The constructor on a known GUID with a free index. -/
theorem newJoystick_shared (bits : InputBits) (reg : Registry) (c0 : Controller) (g m i : Nat)
    (h : reg g = some m) (hi : freeIndex m = some i) :
    newJoystick bits reg c0 g =
      (reg.set g (m ||| 1 <<< i), Except.ok { c0 with guid := g, index := i }) := by
  unfold newJoystick
  simp only [h, hi]

/-- The constructor on a known GUID whose 32 indices are taken. -/
theorem newJoystick_full (bits : InputBits) (reg : Registry) (c0 : Controller) (g m : Nat)
    (h : reg g = some m) (hi : freeIndex m = none) :
    newJoystick bits reg c0 g = (reg, Except.error "Too many duplicate guids") := by
  unfold newJoystick
  simp only [h, hi]

/-! ## `clearMapping`, slot by slot -/

/-- The first `n` rounds of the keyboard loop of `clearMapping`. -/
theorem clearSlot_fold (keys : Nat) (c : Controller) (n : Nat) :
    (List.range n).foldl (clearSlot keys) c =
      { c with
        codes := fun j => if j < n ∧ keys &&& (1 <<< j) ≠ 0 then 0 else c.codes j
        names := fun j => if j < n ∧ keys &&& (1 <<< j) ≠ 0 then "" else c.names j } := by
  induction n with
  | zero => simp
  | succ n ih =>
    rw [List.range_succ, List.foldl_append, ih]
    simp only [List.foldl_cons, List.foldl_nil, clearSlot]
    by_cases hb : keys &&& (1 <<< n) ≠ 0
    · rw [if_pos hb]
      congr 1
      · funext j
        by_cases hj : j = n
        · subst hj
          simp [setSlot, hb]
        · have : j < n + 1 ↔ j < n := by omega
          simp [setSlot, hj, this]
      · funext j
        by_cases hj : j = n
        · subst hj
          simp [setSlot, hb]
        · have : j < n + 1 ↔ j < n := by omega
          simp [setSlot, hj, this]
    · rw [if_neg hb]
      congr 1
      · funext j
        by_cases hj : j = n
        · subst hj
          simp [hb]
        · have : j < n + 1 ↔ j < n := by omega
          simp [this]
      · funext j
        by_cases hj : j = n
        · subst hj
          simp [hb]
        · have : j < n + 1 ↔ j < n := by omega
          simp [this]

/-- The result of `clearMapping`, field by field. -/
theorem clearMapping_eq (c : Controller) (keys : Nat) :
    clearMapping c keys =
      { c with
        codes := fun j => if j < 32 ∧ keys &&& (1 <<< j) ≠ 0 then 0 else c.codes j
        names := fun j => if j < 32 ∧ keys &&& (1 <<< j) ≠ 0 then "" else c.names j
        stick := fun e i v => if c.stick e i v &&& keys ≠ 0 then 0 else c.stick e i v } := by
  unfold clearMapping
  rw [clearSlot_fold]

/-- C14: for every mask `keys`, `clearMapping ( keys )` unbinds (code `0`, empty
name) each keyboard slot `i < 32` whose bit is in `keys` and leaves every other
slot as it was; each joystick entry that intersects `keys` becomes `0` and each
other entry is unchanged, so that afterwards no joystick entry intersects
`keys`; `state`, the capture fields and the deadzones are unchanged; and
clearing twice is the same as clearing once. -/
theorem clearMapping_effect (c : Controller) (keys : Nat) :
    (∀ i, i < 32 → keys.testBit i = true →
      (clearMapping c keys).codes i = 0 ∧ (clearMapping c keys).names i = "") ∧
    (∀ i, ¬ (i < 32 ∧ keys.testBit i = true) →
      (clearMapping c keys).codes i = c.codes i ∧ (clearMapping c keys).names i = c.names i) ∧
    (∀ e i v, c.stick e i v &&& keys ≠ 0 → (clearMapping c keys).stick e i v = 0) ∧
    (∀ e i v, c.stick e i v &&& keys = 0 → (clearMapping c keys).stick e i v = c.stick e i v) ∧
    (∀ e i v, (clearMapping c keys).stick e i v &&& keys = 0) ∧
    (clearMapping c keys).state = c.state ∧ (clearMapping c keys).keyToMap = c.keyToMap ∧
    (clearMapping c keys).owner = c.owner ∧ (clearMapping c keys).active = c.active ∧
    (clearMapping c keys).deadzones = c.deadzones ∧
    clearMapping (clearMapping c keys) keys = clearMapping c keys := by
  refine ⟨?_, ?_, ?_, ?_, ?_, ?_, ?_, ?_, ?_, ?_, ?_⟩
  · intro i hi hb
    have hb' : keys &&& (1 <<< i) ≠ 0 := (and_one_shiftLeft_ne_zero keys i).mpr hb
    rw [clearMapping_eq]
    constructor <;> simp [hi, hb']
  · intro i hn
    have hn' : ¬ (i < 32 ∧ keys &&& (1 <<< i) ≠ 0) := by
      rw [and_one_shiftLeft_ne_zero]
      exact hn
    rw [clearMapping_eq]
    constructor
    · show (if i < 32 ∧ keys &&& (1 <<< i) ≠ 0 then 0 else c.codes i) = c.codes i
      rw [if_neg hn']
    · show (if i < 32 ∧ keys &&& (1 <<< i) ≠ 0 then "" else c.names i) = c.names i
      rw [if_neg hn']
  · intro e i v h
    rw [clearMapping_eq]
    simp only [h, ne_eq, not_false_eq_true, if_true]
  · intro e i v h
    rw [clearMapping_eq]
    simp only [h, ne_eq, not_true_eq_false, if_false]
  · intro e i v
    rw [clearMapping_eq]
    by_cases h : c.stick e i v &&& keys = 0
    · simp only [h, ne_eq, not_true_eq_false, if_false]
    · simp only [h, ne_eq, not_false_eq_true, if_true, Nat.zero_and]
  · rw [clearMapping_eq]
  · rw [clearMapping_eq]
  · rw [clearMapping_eq]
  · rw [clearMapping_eq]
  · rw [clearMapping_eq]
  · rw [clearMapping_eq (clearMapping c keys), clearMapping_eq c keys]
    congr 1
    · funext e i v
      by_cases h : c.stick e i v &&& keys = 0
      · simp only [h, ne_eq, not_true_eq_false, if_false]
      · simp only [h, ne_eq, not_false_eq_true, if_true, Nat.zero_and, not_true_eq_false,
          if_false]
    · funext j
      by_cases h : j < 32 ∧ keys &&& (1 <<< j) ≠ 0
      · simp only [h, ne_eq, not_false_eq_true, and_self, if_true]
      · simp only [h, if_false]
    · funext j
      by_cases h : j < 32 ∧ keys &&& (1 <<< j) ≠ 0
      · simp only [h, ne_eq, not_false_eq_true, and_self, if_true]
      · simp only [h, if_false]

/-- C14 at the idle keyboard and the sample joystick: `clearMapping ( 1 )` unbinds
slot 0 and keeps slot 5; `clearMapping ( 8 )` zeroes the left slot of hat 0
(mask `8`) and keeps the up slot (mask `1`). -/
theorem clearMapping_effect_witness :
    ((clearMapping idleKeyboard 1).codes 0 = 0 ∧ (clearMapping idleKeyboard 1).names 0 = "") ∧
    ((clearMapping idleKeyboard 1).codes 5 = idleKeyboard.codes 5 ∧
      (clearMapping idleKeyboard 1).names 5 = idleKeyboard.names 5) ∧
    (clearMapping sampleLive 8).stick EVENT_JOY_HAT 0 SDL_HAT_LEFT = 0 ∧
    (clearMapping sampleLive 8).stick EVENT_JOY_HAT 0 SDL_HAT_UP =
      sampleLive.stick EVENT_JOY_HAT 0 SDL_HAT_UP :=
  ⟨(clearMapping_effect idleKeyboard 1).1 0 (by decide) (by decide),
    (clearMapping_effect idleKeyboard 1).2.1 5 (by decide),
    (clearMapping_effect sampleLive 8).2.2.1 EVENT_JOY_HAT 0 SDL_HAT_LEFT (by decide),
    (clearMapping_effect sampleLive 8).2.2.2.1 EVENT_JOY_HAT 0 SDL_HAT_UP (by decide)⟩

/-! ## Constructing devices that share a GUID -/

theorem Registry.set_set (reg : Registry) (g a b : Nat) :
    (reg.set g a).set g b = reg.set g b := by
  funext g'
  by_cases h : g' = g <;> simp [Registry.set, h]

theorem Registry.set_self (reg : Registry) (g a : Nat) (h : reg g = some a) :
    reg.set g a = reg := by
  funext g'
  by_cases hg : g' = g
  · simp [Registry.set, hg, h]
  · simp [Registry.set, hg]

theorem freeIndex_low_bits (k : Nat) (hk : k < 32) : freeIndex (2 ^ k - 1) = some k := by
  rw [freeIndex_eq_some]
  refine ⟨hk, by simp, ?_⟩
  intro j hj
  simp [hj]

theorem low_bits_or_next (k : Nat) : (2 ^ k - 1) ||| 1 <<< k = 2 ^ (k + 1) - 1 := by
  apply Nat.eq_of_testBit_eq
  intro i
  rw [testBit_or_one_shiftLeft, Nat.testBit_two_pow_sub_one, Nat.testBit_two_pow_sub_one]
  by_cases h1 : i < k
  · have : i < k + 1 := by omega
    simp [h1, this]
  · by_cases h2 : i = k
    · simp [h2]
    · have : ¬ i < k + 1 := by omega
      simp [h1, h2, this]

/-- With the indices `0 .. k-1` of a GUID taken, the next `n` constructions
(`k + n ≤ 32`) succeed and take the indices `k .. k+n-1` in order. -/
theorem constructN_from (bits : InputBits) (c0 : Controller) (g n : Nat) :
    ∀ (k : Nat) (reg : Registry), k + n ≤ 32 → reg g = some (2 ^ k - 1) →
      constructN bits c0 g n reg =
        (reg.set g (2 ^ (k + n) - 1),
          (List.range' k n).map (fun i => Except.ok { c0 with guid := g, index := i })) := by
  induction n with
  | zero =>
    intro k reg _ h
    simp only [constructN, Nat.add_zero, List.range'_zero, List.map_nil]
    rw [Registry.set_self reg g _ h]
  | succ n ih =>
    intro k reg hkn h
    have e1 := newJoystick_shared bits reg c0 g (2 ^ k - 1) k h (freeIndex_low_bits k (by omega))
    rw [low_bits_or_next] at e1
    have e2 := ih (k + 1) (reg.set g (2 ^ (k + 1) - 1)) (by omega) (by simp [Registry.set])
    simp only [constructN, e1, e2, Registry.set_set, List.range'_succ, List.map_cons]
    have : k + 1 + n = k + (n + 1) := by omega
    rw [this]

/-- From a registry that does not know the GUID, the first `n + 1 ≤ 32`
constructions succeed: the first device is initialised and has index `0`, the
others have the indices `1 .. n`. -/
theorem constructN_unknown (bits : InputBits) (c0 : Controller) (g n : Nat) (reg : Registry)
    (hn : n + 1 ≤ 32) (h : reg g = none) :
    constructN bits c0 g (n + 1) reg =
      (reg.set g (2 ^ (n + 1) - 1),
        Except.ok (initJoystick bits { c0 with guid := g, index := 0 }) ::
          (List.range' 1 n).map (fun i => Except.ok { c0 with guid := g, index := i })) := by
  have e1 := newJoystick_unknown bits reg c0 g h
  have e2 := constructN_from bits c0 g n 1 (reg.set g 1) (by omega) (by simp [Registry.set])
  simp only [constructN, e1, e2, Registry.set_set]
  have : 1 + n = n + 1 := by omega
  rw [this]

theorem initJoystick_guid_index (bits : InputBits) (c : Controller) :
    (initJoystick bits c).guid = c.guid ∧ (initJoystick bits c).index = c.index := by
  unfold initJoystick
  simp [clearMapping_eq]

/-- C12: constructing a joystick for GUID `g` takes the lowest index `i < 32`
whose bit is clear in the occupancy mask of `g` (index `0` and mask `1` when `g`
is not known) and sets exactly that bit; the masks of the other GUIDs are
unchanged; the construction throws exactly when `g` is known and its 32 bits
are all set, and then the registry is unchanged; so after 32 constructions for
a GUID that was not known, which all succeed, the 33rd throws. -/
theorem newJoystick_registry (bits : InputBits) (reg : Registry) (c0 : Controller) (g : Nat) :
    (reg g = none →
      (newJoystick bits reg c0 g).1 = reg.set g 1 ∧
      ∃ d, (newJoystick bits reg c0 g).2 = Except.ok d ∧ d.index = 0 ∧ d.guid = g) ∧
    (∀ m i, reg g = some m → i < 32 → m.testBit i = false → (∀ j, j < i → m.testBit j = true) →
      (newJoystick bits reg c0 g).1 = reg.set g (m ||| 1 <<< i) ∧
      (∀ k, (m ||| 1 <<< i).testBit k = (m.testBit k || decide (k = i))) ∧
      ∃ d, (newJoystick bits reg c0 g).2 = Except.ok d ∧ d.index = i ∧ d.guid = g) ∧
    (∀ g', g' ≠ g → (newJoystick bits reg c0 g).1 g' = reg g') ∧
    ((∃ e, (newJoystick bits reg c0 g).2 = Except.error e) ↔
      ∃ m, reg g = some m ∧ ∀ i, i < 32 → m.testBit i = true) ∧
    ((∃ e, (newJoystick bits reg c0 g).2 = Except.error e) →
      (newJoystick bits reg c0 g).1 = reg) ∧
    (reg g = none →
      (∃ ds : List Controller,
        (constructN bits c0 g 32 reg).2 = ds.map Except.ok ∧ ds.length = 32) ∧
      ∃ e, newJoystick bits (constructN bits c0 g 32 reg).1 c0 g =
        ((constructN bits c0 g 32 reg).1, Except.error e)) := by
  refine ⟨?_, ?_, ?_, ?_, ?_, ?_⟩
  · intro h
    rw [newJoystick_unknown bits reg c0 g h]
    exact ⟨rfl, _, rfl, (initJoystick_guid_index bits _).2, (initJoystick_guid_index bits _).1⟩
  · intro m i h hi hb hlow
    rw [newJoystick_shared bits reg c0 g m i h ((freeIndex_eq_some m i).mpr ⟨hi, hb, hlow⟩)]
    exact ⟨rfl, testBit_or_one_shiftLeft m i, _, rfl, rfl, rfl⟩
  · intro g' hg
    cases h : reg g with
    | none =>
      rw [newJoystick_unknown bits reg c0 g h]
      simp [Registry.set, hg]
    | some m =>
      cases hf : freeIndex m with
      | none => rw [newJoystick_full bits reg c0 g m h hf]
      | some i =>
        rw [newJoystick_shared bits reg c0 g m i h hf]
        simp [Registry.set, hg]
  · cases h : reg g with
    | none =>
      rw [newJoystick_unknown bits reg c0 g h]
      simp
    | some m =>
      cases hf : freeIndex m with
      | none =>
        rw [newJoystick_full bits reg c0 g m h hf]
        constructor
        · intro _
          exact ⟨m, rfl, (freeIndex_eq_none m).mp hf⟩
        · intro _
          exact ⟨_, rfl⟩
      | some i =>
        rw [newJoystick_shared bits reg c0 g m i h hf]
        constructor
        · rintro ⟨e, he⟩
          cases he
        · rintro ⟨m', hm', hall⟩
          cases hm'
          have := (freeIndex_eq_none m).mpr hall
          rw [hf] at this
          cases this
  · cases h : reg g with
    | none =>
      rw [newJoystick_unknown bits reg c0 g h]
      rintro ⟨e, he⟩
      cases he
    | some m =>
      cases hf : freeIndex m with
      | none =>
        rw [newJoystick_full bits reg c0 g m h hf]
        intro _
        rfl
      | some i =>
        rw [newJoystick_shared bits reg c0 g m i h hf]
        rintro ⟨e, he⟩
        cases he
  · intro h
    rw [constructN_unknown bits c0 g 31 reg (by omega) h]
    constructor
    · refine ⟨initJoystick bits { c0 with guid := g, index := 0 } ::
        (List.range' 1 31).map (fun i => { c0 with guid := g, index := i }), ?_, ?_⟩
      · simp only [List.map_cons, List.map_map]
        rfl
      · simp
    · refine ⟨_, newJoystick_full bits _ c0 g (2 ^ (31 + 1) - 1) (by simp [Registry.set]) ?_⟩
      rw [freeIndex_eq_none]
      intro i hi
      rw [Nat.testBit_two_pow_sub_one]
      exact decide_eq_true (by omega)

/-- C12 at the sample registry: GUID `5` has mask `3`, so the new device gets
index `2` and the mask becomes `7`; GUID `9` is not known and gets index `0`;
GUID `6` has all 32 bits set and the construction throws. -/
theorem newJoystick_registry_witness :
    (newJoystick sampleBits sampleRegistry zeroedMembers 5).1 = sampleRegistry.set 5 (3 ||| 1 <<< 2) ∧
    (newJoystick sampleBits sampleRegistry zeroedMembers 9).1 = sampleRegistry.set 9 1 ∧
    (∃ e, (newJoystick sampleBits sampleRegistry zeroedMembers 6).2 = Except.error e) :=
  ⟨((newJoystick_registry sampleBits sampleRegistry zeroedMembers 5).2.1 3 2 rfl (by decide)
      (by decide) (by decide)).1,
    ((newJoystick_registry sampleBits sampleRegistry zeroedMembers 9).1 rfl).1,
    (newJoystick_registry sampleBits sampleRegistry zeroedMembers 6).2.2.2.1.mpr
      ⟨4294967295, rfl, by decide⟩⟩

/-! ## `isPowerOfTwo` -/

theorem two_pow_and_pred (k : Nat) : 2 ^ k &&& (2 ^ k - 1) = 0 := by
  apply Nat.eq_of_testBit_eq
  intro i
  rw [Nat.testBit_and, Nat.testBit_two_pow, Nat.testBit_two_pow_sub_one, Nat.zero_testBit]
  by_cases h : k = i
  · simp [h]
  · simp [h]

/-- A non-zero number that shares no bit with its predecessor is a power of
two. -/
theorem eq_two_pow_of_and_pred (x : Nat) : x ≠ 0 → x &&& (x - 1) = 0 → ∃ k, x = 2 ^ k := by
  induction x using Nat.strong_induction_on with
  | _ x ih =>
    intro hx hand
    have hbit : ∀ i, (x.testBit i && (x - 1).testBit i) = false := by
      intro i
      rw [← Nat.testBit_and, hand, Nat.zero_testBit]
    by_cases hpar : x % 2 = 0
    · have hy : x / 2 ≠ 0 := by omega
      have hpred : (x - 1) / 2 = x / 2 - 1 := by omega
      have hand' : x / 2 &&& (x / 2 - 1) = 0 := by
        apply Nat.eq_of_testBit_eq
        intro i
        rw [Nat.testBit_and, Nat.zero_testBit, ← hpred, ← Nat.testBit_add_one,
          ← Nat.testBit_add_one]
        exact hbit (i + 1)
      obtain ⟨k, hk⟩ := ih (x / 2) (by omega) hy hand'
      refine ⟨k + 1, ?_⟩
      rw [Nat.pow_succ, ← hk]
      omega
    · by_cases hy : x / 2 = 0
      · exact ⟨0, by omega⟩
      · obtain ⟨i, hi⟩ := Nat.ne_zero_implies_bit_true hy
        have hpred : (x - 1) / 2 = x / 2 := by omega
        have h1 : x.testBit (i + 1) = true := by rw [Nat.testBit_add_one]; exact hi
        have h2 : (x - 1).testBit (i + 1) = true := by
          rw [Nat.testBit_add_one, hpred]
          exact hi
        have := hbit (i + 1)
        rw [h1, h2] at this
        cases this

/-- The test `isPowerOfTwo` holds exactly for the powers of two. -/
theorem isPowerOfTwo_iff (x : Nat) : isPowerOfTwo x = true ↔ ∃ k, x = 2 ^ k := by
  unfold isPowerOfTwo
  constructor
  · intro h
    simp only [Bool.and_eq_true, bne_iff_ne, ne_eq, beq_iff_eq] at h
    exact eq_two_pow_of_and_pred x h.1 h.2
  · rintro ⟨k, rfl⟩
    have h0 : (2 : Nat) ^ k ≠ 0 := by positivity
    simp [h0, two_pow_and_pred]

/-- A 32-bit number has exactly one bit set when it is a power of two. -/
theorem popcount32_eq_one_iff (x : Nat) (hx : x < 2 ^ 32) :
    popcount32 x = 1 ↔ ∃ k, x = 2 ^ k := by
  unfold popcount32
  rw [Finset.card_eq_one]
  constructor
  · rintro ⟨a, ha⟩
    have hmem : ∀ i, (i < 32 ∧ x.testBit i = true) ↔ i = a := by
      intro i
      have := Finset.ext_iff.mp ha i
      simpa using this
    refine ⟨a, ?_⟩
    apply Nat.eq_of_testBit_eq
    intro i
    rw [Nat.testBit_two_pow]
    by_cases hi : i = a
    · subst hi
      have := (hmem i).mpr rfl
      simp [this.2]
    · by_cases h32 : i < 32
      · have : ¬ x.testBit i = true := fun hb => hi ((hmem i).mp ⟨h32, hb⟩)
        simp [this, Ne.symm hi]
      · have hlt : x < 2 ^ i :=
          Nat.lt_of_lt_of_le hx (Nat.pow_le_pow_right (by decide) (by omega))
        simp [Nat.testBit_lt_two_pow hlt, Ne.symm hi]
  · rintro ⟨k, rfl⟩
    have hk : k < 32 := (Nat.pow_lt_pow_iff_right (by decide)).mp hx
    refine ⟨k, ?_⟩
    ext i
    simp only [Finset.mem_filter, Finset.mem_range, Nat.testBit_two_pow, decide_eq_true_eq,
      Finset.mem_singleton]
    constructor
    · rintro ⟨_, h⟩
      exact h.symm
    · intro h
      exact ⟨by omega, h.symm⟩

/-! ## Destroying devices -/

/-- The destructor of a device whose GUID is known and whose index is below 32
clears the bit of the index. -/
theorem destroy_known (reg : Registry) (c : Controller) (m : Nat) (h : reg c.guid = some m)
    (hi : c.index < 32) :
    destroy reg c = reg.set c.guid (m &&& not32 (1 <<< c.index)) := by
  unfold destroy
  simp only [h, ge_iff_le, Nat.not_le.mpr hi, if_false]

theorem testBit_and_not32_shift (m idx i : Nat) :
    (m &&& not32 (1 <<< idx)).testBit i = (m.testBit i && decide (i < 32) && decide (idx ≠ i)) := by
  rw [Nat.testBit_and, testBit_not32, Nat.one_shiftLeft, Nat.testBit_two_pow]
  by_cases h : idx = i <;> simp [h]

/-- Destroying a list of devices of GUID `g` clears, in the mask of `g`, exactly
the bits of their indices. -/
theorem destroy_fold (g : Nat) (l : List Controller) :
    ∀ (reg : Registry) (m : Nat), reg g = some m → m < 2 ^ 32 →
      (∀ d, d ∈ l → d.guid = g ∧ d.index < 32) →
      ∃ m', (l.foldl destroy reg) g = some m' ∧ m' < 2 ^ 32 ∧
        ∀ i, i < 32 → (m'.testBit i = true ↔ m.testBit i = true ∧ ∀ d, d ∈ l → d.index ≠ i) := by
  induction l with
  | nil =>
    intro reg m h hm _
    exact ⟨m, h, hm, fun i _ => by simp⟩
  | cons d l ih =>
    intro reg m h hm hl
    obtain ⟨hg, hi⟩ := hl d (List.mem_cons_self d l)
    have e1 : destroy reg d = reg.set g (m &&& not32 (1 <<< d.index)) := by
      rw [destroy_known reg d m (by rw [hg]; exact h) hi, hg]
    have hm1 : m &&& not32 (1 <<< d.index) < 2 ^ 32 :=
      Nat.lt_of_le_of_lt Nat.and_le_left hm
    obtain ⟨m', h1, h2, h3⟩ := ih (reg.set g (m &&& not32 (1 <<< d.index)))
      (m &&& not32 (1 <<< d.index)) (by simp [Registry.set]) hm1
      (fun d' hd' => hl d' (List.mem_cons_of_mem d hd'))
    refine ⟨m', by rw [List.foldl_cons, e1]; exact h1, h2, ?_⟩
    intro i hi32
    rw [h3 i hi32, testBit_and_not32_shift]
    simp only [Bool.and_eq_true, decide_eq_true_eq, List.mem_cons, forall_eq_or_imp]
    constructor
    · rintro ⟨⟨⟨hb, _⟩, hne⟩, hrest⟩
      exact ⟨hb, hne, hrest⟩
    · rintro ⟨hb, hne, hrest⟩
      exact ⟨⟨⟨hb, hi32⟩, hne⟩, hrest⟩

/-- C13: `isOnlyGuid` is true for a keyboard; for a joystick it is the test
`isPowerOfTwo` of the occupancy mask of its GUID (`0` for a GUID that is not
known), and for every 32-bit `x` that test holds exactly when `x` has one bit
set; so `isOnlyGuid` is true for a joystick exactly when the mask of its GUID
has one bit set.  After 32 devices of one GUID are constructed and the 31
others are destroyed, in any order, `isOnlyGuid` is true for the survivor. -/
theorem isOnlyGuid_one_bit (reg : Registry) (c : Controller) :
    isOnlyGuid true reg c = true ∧
    (∀ x, x < 2 ^ 32 → (isPowerOfTwo x = true ↔ popcount32 x = 1)) ∧
    ((reg c.guid).getD 0 < 2 ^ 32 →
      (isOnlyGuid false reg c = true ↔ popcount32 ((reg c.guid).getD 0) = 1)) ∧
    (∀ (bits : InputBits) (c0 : Controller) (g : Nat), reg g = none →
      ∃ ds : List Controller,
        (constructN bits c0 g 32 reg).2 = ds.map Except.ok ∧ ds.length = 32 ∧
        ∀ s, s ∈ ds → ∀ l : List Controller, (∀ d, d ∈ l ↔ d ∈ ds ∧ d.index ≠ s.index) →
          isOnlyGuid false (l.foldl destroy (constructN bits c0 g 32 reg).1) s = true) := by
  have hpow : ∀ x, x < 2 ^ 32 → (isPowerOfTwo x = true ↔ popcount32 x = 1) := by
    intro x hx
    rw [isPowerOfTwo_iff, popcount32_eq_one_iff x hx]
  refine ⟨rfl, hpow, ?_, ?_⟩
  · intro hlt
    unfold isOnlyGuid
    simp only [Bool.false_eq_true, if_false]
    exact hpow _ hlt
  · intro bits c0 g h
    rw [constructN_unknown bits c0 g 31 reg (by omega) h]
    refine ⟨initJoystick bits { c0 with guid := g, index := 0 } ::
      (List.range' 1 31).map (fun i => { c0 with guid := g, index := i }), ?_, by simp, ?_⟩
    · simp only [List.map_cons, List.map_map]
      rfl
    · have hds : ∀ d, d ∈ initJoystick bits { c0 with guid := g, index := 0 } ::
          (List.range' 1 31).map (fun i => ({ c0 with guid := g, index := i } : Controller)) →
          d.guid = g ∧ d.index < 32 := by
        intro d hd
        rcases List.mem_cons.mp hd with hd | hd
        · rw [hd]
          have := initJoystick_guid_index bits { c0 with guid := g, index := 0 }
          exact ⟨this.1, by rw [this.2]; exact Nat.zero_lt_succ 31⟩
        · obtain ⟨i, hi, rfl⟩ := List.mem_map.mp hd
          have := List.mem_range'_1.mp hi
          exact ⟨rfl, by show i < 32; omega⟩
      have hall : ∀ i, i < 32 → ∃ d, d ∈ initJoystick bits { c0 with guid := g, index := 0 } ::
          (List.range' 1 31).map (fun i => ({ c0 with guid := g, index := i } : Controller)) ∧
          d.index = i := by
        intro i hi
        by_cases h0 : i = 0
        · exact ⟨_, List.mem_cons_self _ _,
            by rw [(initJoystick_guid_index bits _).2, h0]⟩
        · refine ⟨{ c0 with guid := g, index := i }, List.mem_cons_of_mem _ ?_, rfl⟩
          exact List.mem_map.mpr ⟨i, List.mem_range'_1.mpr (by omega), rfl⟩
      intro s hs l hl
      obtain ⟨hsg, hsi⟩ := hds s hs
      have hfull : (2 : Nat) ^ (31 + 1) - 1 < 2 ^ 32 := by decide
      obtain ⟨m', h1, h2, h3⟩ := destroy_fold g l (reg.set g (2 ^ (31 + 1) - 1)) (2 ^ (31 + 1) - 1)
        (by simp [Registry.set]) hfull (fun d hd => hds d ((hl d).mp hd).1)
      have hm' : m' = 2 ^ s.index := by
        apply Nat.eq_of_testBit_eq
        intro i
        rw [Nat.testBit_two_pow]
        by_cases hi : i < 32
        · have hbit : (2 ^ (31 + 1) - 1).testBit i = true := by
            rw [Nat.testBit_two_pow_sub_one]
            exact decide_eq_true (by omega)
          by_cases hsi' : s.index = i
          · have : m'.testBit i = true :=
              (h3 i hi).mpr ⟨hbit, fun d hd => by rw [← hsi']; exact ((hl d).mp hd).2⟩
            simp [this, hsi']
          · have : ¬ m'.testBit i = true := by
              intro hb
              obtain ⟨d, hd, hdi⟩ := hall i hi
              have hdl : d ∈ l := (hl d).mpr ⟨hd, by rw [hdi]; exact Ne.symm hsi'⟩
              exact ((h3 i hi).mp hb).2 d hdl hdi
            simp [this, hsi']
        · have hlt : m' < 2 ^ i :=
            Nat.lt_of_lt_of_le h2 (Nat.pow_le_pow_right (by decide) (by omega))
          have hne : ¬ s.index = i := by omega
          simp [Nat.testBit_lt_two_pow hlt, hne]
      unfold isOnlyGuid
      simp only [Bool.false_eq_true, if_false, hsg, h1, Option.getD_some, hm']
      exact (isPowerOfTwo_iff _).mpr ⟨_, rfl⟩

/-- C13 at the sample registry: GUID `5` has the mask `3`, which has two bits
set, so `isOnlyGuid` is false for a joystick of that GUID and true for a
keyboard; and the 32 devices of a new GUID `9` exist. -/
theorem isOnlyGuid_one_bit_witness :
    (3 : Nat) < 2 ^ 32 ∧
    (isOnlyGuid false sampleRegistry { guid := 5 } = true ↔ popcount32 3 = 1) ∧
    isOnlyGuid true sampleRegistry { guid := 5 } = true ∧
    (∃ ds : List Controller,
      (constructN sampleBits zeroedMembers 9 32 sampleRegistry).2 = ds.map Except.ok ∧
      ds.length = 32 ∧
      ∀ s, s ∈ ds → ∀ l : List Controller, (∀ d, d ∈ l ↔ d ∈ ds ∧ d.index ≠ s.index) →
        isOnlyGuid false
          (l.foldl destroy (constructN sampleBits zeroedMembers 9 32 sampleRegistry).1) s = true) :=
  ⟨by decide,
    (isOnlyGuid_one_bit sampleRegistry { guid := 5 }).2.2.1 (by decide),
    (isOnlyGuid_one_bit sampleRegistry { guid := 5 }).1,
    (isOnlyGuid_one_bit sampleRegistry { guid := 5 }).2.2.2 sampleBits zeroedMembers 9 rfl⟩

/-! ## The live bitmask during a capture -/

theorem axis_capture_state (c : Controller) (axis : Nat) (raw : Int) (hm : c.keyToMap ≠ 0) :
    (joystickAxisEvent c axis raw).1.state = c.state := by
  unfold joystickAxisEvent
  simp only [hm, ne_eq, not_false_eq_true, if_true]
  split <;> split <;> rfl

theorem hat_capture_state (c : Controller) (hat value : Nat) (hm : c.keyToMap ≠ 0) :
    (joystickHatEvent c hat value).1.state = c.state := by
  unfold joystickHatEvent
  simp only [hm, ne_eq, not_false_eq_true, if_true]
  split <;> split <;> rfl

theorem button_capture_state (c : Controller) (button st : Nat) (hm : c.keyToMap ≠ 0) :
    (joystickButtonEvent c button st).1.state = c.state := by
  unfold joystickButtonEvent
  simp only [hm, ne_eq, not_false_eq_true, if_true]
  split <;> split <;> rfl

/-- C15: while a capture is active (`keyToMap ≠ 0`), no axis, hat, button or key
event changes `state`, the committing event included; and whatever the capture
state, `state` is not changed by a key event, by `startMapping`, by
`cancelMapping` nor by `clearMapping`, so only a joystick event on the live path
changes it. -/
theorem capture_state_unchanged (getVKeyName : Nat → Nat → Bool → String) (c : Controller)
    (hm : c.keyToMap ≠ 0) :
    (∀ e, (joystickEvent c e).1.state = c.state) ∧
    (∀ vkCode scanCode isExtended isDown,
      (keyboardEvent getVKeyName c vkCode scanCode isExtended isDown).1.state = c.state) ∧
    (∀ c' : Controller,
      (∀ vkCode scanCode isExtended isDown,
        (keyboardEvent getVKeyName c' vkCode scanCode isExtended isDown).1.state = c'.state) ∧
      (∀ owner key, (startMapping c' owner key).state = c'.state) ∧
      (cancelMapping c').state = c'.state ∧
      (∀ keys, (clearMapping c' keys).state = c'.state)) := by
  refine ⟨?_, ?_, ?_⟩
  · intro e
    cases e with
    | axis a raw => exact axis_capture_state c a raw hm
    | hat h v => exact hat_capture_state c h v hm
    | button b st => exact button_capture_state c b st hm
  · intro vkCode scanCode isExtended isDown
    exact (keyboard_stick_state getVKeyName c vkCode scanCode isExtended isDown).2
  · intro c'
    refine ⟨?_, fun _ _ => rfl, rfl, ?_⟩
    · intro vkCode scanCode isExtended isDown
      exact (keyboard_stick_state getVKeyName c' vkCode scanCode isExtended isDown).2
    · intro keys
      rw [clearMapping_eq]

/-- C15 at the sample capture: the events that commit the mask `32` to the
positive direction of axis 0 leave `state` as it was. -/
theorem capture_state_unchanged_witness :
    sampleCapture.keyToMap ≠ 0 ∧
    (joystickEvent sampleCapture (JoyEvent.axis 0 30000)).1.state = sampleCapture.state ∧
    (joystickEvent (joystickEvent sampleCapture (JoyEvent.axis 0 30000)).1
      (JoyEvent.axis 0 0)).1.state = sampleCapture.state :=
  ⟨by decide,
    (capture_state_unchanged sampleKeyName sampleCapture (by decide)).1 (JoyEvent.axis 0 30000),
    ((capture_state_unchanged sampleKeyName
      (joystickEvent sampleCapture (JoyEvent.axis 0 30000)).1 (by decide)).1
        (JoyEvent.axis 0 0)).trans
      ((capture_state_unchanged sampleKeyName sampleCapture (by decide)).1
        (JoyEvent.axis 0 30000))⟩

/-! ## Traces -/

/-- With no capture active, a joystick event makes no call, leaves the table
as it is and starts no capture. -/
theorem joystickEvent_live_frame (c : Controller) (e : JoyEvent) (h : c.keyToMap = 0) :
    (joystickEvent c e).2 = [] ∧ (joystickEvent c e).1.stick = c.stick ∧
      (joystickEvent c e).1.keyToMap = 0 := by
  have hcap : ¬ c.keyToMap ≠ 0 := not_not.mpr h
  cases e with
  | axis a raw =>
    show (joystickAxisEvent c a raw).2 = [] ∧ (joystickAxisEvent c a raw).1.stick = c.stick ∧
      (joystickAxisEvent c a raw).1.keyToMap = 0
    unfold joystickAxisEvent
    rw [if_neg hcap]
    exact ⟨rfl, rfl, h⟩
  | hat hh v =>
    show (joystickHatEvent c hh v).2 = [] ∧ (joystickHatEvent c hh v).1.stick = c.stick ∧
      (joystickHatEvent c hh v).1.keyToMap = 0
    rw [hat_live_eq c hh v h]
    exact ⟨rfl, rfl, h⟩
  | button b st =>
    show (joystickButtonEvent c b st).2 = [] ∧ (joystickButtonEvent c b st).1.stick = c.stick ∧
      (joystickButtonEvent c b st).1.keyToMap = 0
    unfold joystickButtonEvent
    rw [if_neg hcap]
    simp only []
    split
    · exact ⟨rfl, rfl, h⟩
    · split
      · exact ⟨rfl, rfl, h⟩
      · split <;> exact ⟨rfl, rfl, h⟩

/-- With no capture active, a list of joystick events makes no call and leaves
the table as it is. -/
theorem runEvents_live_frame (es : List JoyEvent) :
    ∀ c : Controller, c.keyToMap = 0 →
      (runEvents c es).2 = [] ∧ (runEvents c es).1.stick = c.stick ∧
        (runEvents c es).1.keyToMap = 0 := by
  induction es with
  | nil =>
    intro c h
    exact ⟨rfl, rfl, h⟩
  | cons e es ih =>
    intro c h
    obtain ⟨h1, h2, h3⟩ := joystickEvent_live_frame c e h
    obtain ⟨k1, k2, k3⟩ := ih (joystickEvent c e).1 h3
    simp only [runEvents]
    exact ⟨by rw [h1, k1]; rfl, by rw [k2, h2], k3⟩

theorem runEvents_cons (c : Controller) (e : JoyEvent) (es : List JoyEvent) :
    runEvents c (e :: es) =
      ((runEvents (joystickEvent c e).1 es).1, (joystickEvent c e).2 ++ (runEvents (joystickEvent c e).1 es).2) :=
  rfl

/-- C16: on a joystick, after `startMapping ( owner, m )` with `m ≠ 0`, an axis
event outside the deadzone followed by an event of the same axis inside it
calls `doneMapping` on the owner once, with the mask `m`; and whatever joystick
events follow, no further call is made and no entry of the mapping table
changes. -/
theorem capture_commits_once (c : Controller) (owner : Option Nat) (m axis : Nat)
    (raw1 raw2 : Int) (es : List JoyEvent) (hm : m ≠ 0)
    (h1 : raw1.natAbs > c.deadzones axis) (h2 : raw2.natAbs ≤ c.deadzones axis) :
    let c0 := startMapping c owner m
    let r2 := runEvents c0 [JoyEvent.axis axis raw1, JoyEvent.axis axis raw2]
    let r := runEvents c0 (JoyEvent.axis axis raw1 :: JoyEvent.axis axis raw2 :: es)
    r2.2 = notify owner m ∧
    (∀ o, owner = some o → r2.2 = [(o, m)]) ∧
    r2.1.stick EVENT_JOY_AXIS axis (axisValue (c.deadzones axis) raw1) = m ∧
    r2.1.keyToMap = 0 ∧
    (runEvents r2.1 es).2 = [] ∧
    (runEvents r2.1 es).1.stick = r2.1.stick ∧
    r.2 = notify owner m ∧ r.1.stick = r2.1.stick := by
  intro c0 r2 r
  have hk0 : c0.keyToMap ≠ 0 := hm
  have hd := axisValue_off_center (c.deadzones axis) raw1 h1
  have hd0 : axisValue (c.deadzones axis) raw1 ≠ 0 := by
    rcases hd with h | h <;> rw [h] <;> decide
  have hidle : axisActiveValue c0 axis = 0 := axisActiveValue_idle c0 axis rfl rfl
  have e1 : joystickEvent c0 (JoyEvent.axis axis raw1) =
      ({ c0 with active := (Mappings.set c0.active EVENT_JOY_AXIS axis
          (axisValue (c.deadzones axis) raw1) c0.keyToMap) }, []) :=
    axis_capture_arm_eq c0 axis raw1 hk0 hidle
  have hact : axisActiveValue (joystickEvent c0 (JoyEvent.axis axis raw1)).1 axis =
      axisValue (c.deadzones axis) raw1 := by
    rw [e1]
    exact axisActiveValue_set c0 axis _ hk0 rfl hd
  have hk1 : (joystickEvent c0 (JoyEvent.axis axis raw1)).1.keyToMap ≠ 0 := by
    rw [e1]
    exact hk0
  have hv2 : axisValue ((joystickEvent c0 (JoyEvent.axis axis raw1)).1.deadzones axis) raw2 = 0 := by
    rw [e1]
    exact axisValue_centered _ _ h2
  have e2 : joystickEvent (joystickEvent c0 (JoyEvent.axis axis raw1)).1 (JoyEvent.axis axis raw2) = _ :=
    axis_capture_commit_eq _ axis raw2 hk1 (by rw [hact]; exact hd0) hv2
  rw [hact] at e2
  have hcalls1 : (joystickEvent c0 (JoyEvent.axis axis raw1)).2 = [] := by rw [e1]
  have hcalls2 : (joystickEvent (joystickEvent c0 (JoyEvent.axis axis raw1)).1
      (JoyEvent.axis axis raw2)).2 = notify owner m := by
    rw [e2, e1]
    rfl
  have hr2 : r2 = ((joystickEvent (joystickEvent c0 (JoyEvent.axis axis raw1)).1
      (JoyEvent.axis axis raw2)).1, notify owner m) := by
    show runEvents c0 [JoyEvent.axis axis raw1, JoyEvent.axis axis raw2] = _
    rw [runEvents_cons, runEvents_cons, hcalls1, hcalls2]
    simp [runEvents]
  have hkey2 : r2.1.keyToMap = 0 := by
    rw [hr2, e2]
    rfl
  obtain ⟨f1, f2, -⟩ := runEvents_live_frame es r2.1 hkey2
  have hr : r = ((runEvents r2.1 es).1, notify owner m ++ (runEvents r2.1 es).2) := by
    show runEvents c0 (JoyEvent.axis axis raw1 :: JoyEvent.axis axis raw2 :: es) = _
    rw [runEvents_cons, runEvents_cons, hcalls1, hcalls2, hr2]
    rfl
  refine ⟨by rw [hr2], ?_, ?_, hkey2, f1, f2, ?_, ?_⟩
  · intro o ho
    rw [hr2, ho]
    rfl
  · rw [hr2, e2]
    simp [cancelMapping, Mappings.set, hd0, AXIS_CENTERED]
    rw [e1]
    rfl
  · rw [hr, f1]
    simp
  · rw [hr]
    exact f2

/-- C16 at the sample joystick: a capture of the mask `32` for owner `7`, then
`+30000` and `0` on axis 0, then a press of button 0 and a hat event: one call
`(7, 32)` in all. -/
theorem capture_commits_once_witness :
    (32 : Nat) ≠ 0 ∧
    (runEvents (startMapping sampleLive (some 7) 32)
      (JoyEvent.axis 0 30000 :: JoyEvent.axis 0 0 ::
        [JoyEvent.button 0 SDL_PRESSED, JoyEvent.hat 0 SDL_HAT_UP])).2 = notify (some 7) 32 ∧
    (runEvents (startMapping sampleLive (some 7) 32)
      [JoyEvent.axis 0 30000, JoyEvent.axis 0 0]).2 = [(7, 32)] :=
  ⟨by decide,
    (capture_commits_once sampleLive (some 7) 32 0 30000 0
      [JoyEvent.button 0 SDL_PRESSED, JoyEvent.hat 0 SDL_HAT_UP] (by decide) (by decide)
      (by decide)).2.2.2.2.2.2.1,
    (capture_commits_once sampleLive (some 7) 32 0 30000 0 [] (by decide) (by decide)
      (by decide)).2.1 7 rfl⟩

/-! ## `getMapping` -/

/-- C17: for a keyboard, `getMapping ( k )` is the name of the lowest slot
`i < 32` whose bit is set in `k` and whose code is not zero, and the empty
string when there is no such slot; for a joystick it is the empty string. -/
theorem getMapping_lowest_slot (c : Controller) (key : Nat) :
    (∀ i, i < 32 → key.testBit i = true → c.codes i ≠ 0 →
      (∀ j, j < i → ¬ (key.testBit j = true ∧ c.codes j ≠ 0)) →
      getMapping true c key = c.names i) ∧
    ((∀ i, i < 32 → ¬ (key.testBit i = true ∧ c.codes i ≠ 0)) → getMapping true c key = "") ∧
    getMapping false c key = "" := by
  refine ⟨?_, ?_, ?_⟩
  · intro i hi hb hc hlow
    have hfind : (List.range 32).find?
        (fun i => decide (key &&& (1 <<< i) ≠ 0 ∧ c.codes i ≠ 0)) = some i := by
      rw [List.find?_range_eq_some]
      refine ⟨?_, List.mem_range.mpr hi, ?_⟩
      · exact decide_eq_true ⟨(and_one_shiftLeft_ne_zero key i).mpr hb, hc⟩
      · intro j hj
        have := hlow j hj
        rw [← and_one_shiftLeft_ne_zero] at this
        simp only [Bool.not_eq_true', decide_eq_false_iff_not]
        exact this
    unfold getMapping
    simp only [if_true, hfind]
  · intro hnone
    have hfind : (List.range 32).find?
        (fun i => decide (key &&& (1 <<< i) ≠ 0 ∧ c.codes i ≠ 0)) = none := by
      rw [List.find?_range_eq_none]
      intro i hi
      have := hnone i hi
      rw [← and_one_shiftLeft_ne_zero] at this
      simp only [Bool.not_eq_true', decide_eq_false_iff_not]
      exact this
    unfold getMapping
    simp only [if_true, hfind]
  · rfl

/-- C17 at the idle keyboard (slot 0 named `"A"`, slot 5 named `"B"`): the mask
of the bits 0 and 5 gives the name of slot 0, the mask of the bits 3 and 5 the
name of slot 5, the mask of bit 3 the empty string. -/
theorem getMapping_lowest_slot_witness :
    getMapping true idleKeyboard 33 = idleKeyboard.names 0 ∧
    getMapping true idleKeyboard 40 = idleKeyboard.names 5 ∧
    getMapping true idleKeyboard 8 = "" :=
  ⟨(getMapping_lowest_slot idleKeyboard 33).1 0 (by decide) (by decide) (by decide)
      (fun j hj => absurd hj (Nat.not_lt_zero j)),
    (getMapping_lowest_slot idleKeyboard 40).1 5 (by decide) (by decide) (by decide)
      (by decide),
    (getMapping_lowest_slot idleKeyboard 8).2.1 (by decide)⟩

/-! ## Axis capture: the first armed direction wins -/

/-- With a capture active and a direction of the axis armed, an event outside
the deadzone does nothing. -/
theorem axis_capture_ignore_eq (c : Controller) (axis : Nat) (raw : Int) (hm : c.keyToMap ≠ 0)
    (ha : axisActiveValue c axis ≠ 0) (hv : raw.natAbs > c.deadzones axis) :
    joystickAxisEvent c axis raw = (c, []) := by
  have hd := axisValue_off_center (c.deadzones axis) raw hv
  have hd0 : ¬ axisValue (c.deadzones axis) raw = 0 := by
    rcases hd with h | h <;> rw [h] <;> decide
  unfold joystickAxisEvent
  simp only [hm, ne_eq, not_false_eq_true, if_true, ha, hd0, false_and, if_false]

/-- A list of events outside the deadzone on an armed axis does nothing. -/
theorem runEvents_axis_ignored (c : Controller) (axis : Nat) (hm : c.keyToMap ≠ 0)
    (ha : axisActiveValue c axis ≠ 0) (raws : List Int)
    (hr : ∀ x, x ∈ raws → x.natAbs > c.deadzones axis) :
    runEvents c (raws.map (JoyEvent.axis axis)) = (c, []) := by
  induction raws with
  | nil => rfl
  | cons x raws ih =>
    have e : joystickEvent c (JoyEvent.axis axis x) = (c, []) :=
      axis_capture_ignore_eq c axis x hm ha (hr x (List.mem_cons_self x raws))
    rw [List.map_cons, runEvents_cons, e, ih (fun y hy => hr y (List.mem_cons_of_mem x hy))]
    rfl

theorem runEvents_append (es1 es2 : List JoyEvent) :
    ∀ c : Controller, runEvents c (es1 ++ es2) =
      ((runEvents (runEvents c es1).1 es2).1,
        (runEvents c es1).2 ++ (runEvents (runEvents c es1).1 es2).2) := by
  induction es1 with
  | nil =>
    intro c
    simp [runEvents]
  | cons e es1 ih =>
    intro c
    rw [List.cons_append, runEvents_cons, ih, runEvents_cons]
    simp [List.append_assoc]

/-- C18: during a capture (`keyToMap ≠ 0`), once a direction of an axis is armed,
an event of that axis outside the deadzone, of either sign, changes nothing
and makes no call.  So when an axis with nothing armed receives an event
outside the deadzone, then any number of further such events, and then an
event inside the deadzone, the commit writes the target mask to the direction
of the first event and leaves the opposite direction as it was. -/
theorem axis_first_armed_wins (c : Controller) (axis : Nat) (hm : c.keyToMap ≠ 0) :
    (axisActiveValue c axis ≠ 0 →
      ∀ raw : Int, raw.natAbs > c.deadzones axis → joystickAxisEvent c axis raw = (c, [])) ∧
    (axisActiveValue c axis = 0 →
      ∀ (raw1 : Int) (raws : List Int) (raw0 : Int), raw1.natAbs > c.deadzones axis →
        (∀ x, x ∈ raws → x.natAbs > c.deadzones axis) → raw0.natAbs ≤ c.deadzones axis →
        let d := axisValue (c.deadzones axis) raw1
        let r := runEvents c
          (JoyEvent.axis axis raw1 :: (raws.map (JoyEvent.axis axis) ++ [JoyEvent.axis axis raw0]))
        runEvents (joystickAxisEvent c axis raw1).1 (raws.map (JoyEvent.axis axis)) =
          ((joystickAxisEvent c axis raw1).1, []) ∧
        r.1.stick EVENT_JOY_AXIS axis d = c.keyToMap ∧
        (∀ v, v ≠ d → v ≠ AXIS_CENTERED →
          r.1.stick EVENT_JOY_AXIS axis v = c.stick EVENT_JOY_AXIS axis v) ∧
        r.2 = notify c.owner c.keyToMap) := by
  constructor
  · intro ha raw hv
    exact axis_capture_ignore_eq c axis raw hm ha hv
  · intro ha raw1 raws raw0 h1 hrs h0 d r
    have hd : d = AXIS_POSITIVE ∨ d = AXIS_NEGATIVE := axisValue_off_center _ _ h1
    have hd0 : d ≠ 0 := by
      rcases hd with h | h <;> rw [h] <;> decide
    have hp : c.active EVENT_JOY_AXIS axis AXIS_POSITIVE = 0 := by
      by_contra hne
      unfold axisActiveValue at ha
      rw [if_pos hne] at ha
      exact absurd ha (by decide)
    have e1 : joystickAxisEvent c axis raw1 =
        ({ c with active := (Mappings.set c.active EVENT_JOY_AXIS axis d c.keyToMap) }, []) :=
      axis_capture_arm_eq c axis raw1 hm ha
    have hact : axisActiveValue (joystickAxisEvent c axis raw1).1 axis = d := by
      rw [e1]
      exact axisActiveValue_set c axis d hm hp hd
    have hm1 : (joystickAxisEvent c axis raw1).1.keyToMap ≠ 0 := by rw [e1]; exact hm
    have hdz : (joystickAxisEvent c axis raw1).1.deadzones = c.deadzones := by rw [e1]
    have eign : runEvents (joystickAxisEvent c axis raw1).1 (raws.map (JoyEvent.axis axis)) =
        ((joystickAxisEvent c axis raw1).1, []) :=
      runEvents_axis_ignored _ axis hm1 (by rw [hact]; exact hd0) raws
        (by rw [hdz]; exact hrs)
    have e2 : joystickAxisEvent (joystickAxisEvent c axis raw1).1 axis raw0 = _ :=
      axis_capture_commit_eq _ axis raw0 hm1 (by rw [hact]; exact hd0)
        (by rw [hdz]; exact axisValue_centered _ _ h0)
    rw [hact] at e2
    have hr : r = ((joystickAxisEvent (joystickAxisEvent c axis raw1).1 axis raw0).1,
        (joystickAxisEvent (joystickAxisEvent c axis raw1).1 axis raw0).2) := by
      show runEvents c (JoyEvent.axis axis raw1 ::
        (raws.map (JoyEvent.axis axis) ++ [JoyEvent.axis axis raw0])) = _
      rw [runEvents_cons, runEvents_append]
      show ((runEvents (runEvents (joystickAxisEvent c axis raw1).1
          (raws.map (JoyEvent.axis axis))).1 [JoyEvent.axis axis raw0]).1,
        (joystickAxisEvent c axis raw1).2 ++
          ((runEvents (joystickAxisEvent c axis raw1).1 (raws.map (JoyEvent.axis axis))).2 ++
            (runEvents (runEvents (joystickAxisEvent c axis raw1).1
              (raws.map (JoyEvent.axis axis))).1 [JoyEvent.axis axis raw0]).2)) = _
      rw [eign]
      have : (joystickAxisEvent c axis raw1).2 = [] := by rw [e1]
      rw [this]
      simp [runEvents, joystickEvent]
    refine ⟨eign, ?_, ?_, ?_⟩
    · rw [hr, e2, e1]
      simp [cancelMapping, Mappings.set, hd0, AXIS_CENTERED]
    · intro v hv hv0
      rw [hr, e2, e1]
      simp [cancelMapping, Mappings.set, hv, hv0]
    · rw [hr, e2, e1]

/-- C18 at the sample capture: with the positive direction of axis 0 armed by
`+30000`, the value `-30000` changes nothing; and after `+30000`, `-30000`,
`+32000`, `0` the mask `32` is written to the positive direction while the
negative direction keeps its mask `8`. -/
theorem axis_first_armed_wins_witness :
    joystickAxisEvent (joystickAxisEvent sampleCapture 0 30000).1 0 (-30000) =
      ((joystickAxisEvent sampleCapture 0 30000).1, []) ∧
    (runEvents sampleCapture (JoyEvent.axis 0 30000 ::
      ([-30000, 32000].map (JoyEvent.axis 0) ++ [JoyEvent.axis 0 0]))).1.stick
        EVENT_JOY_AXIS 0 (axisValue (sampleCapture.deadzones 0) 30000) = 32 ∧
    (runEvents sampleCapture (JoyEvent.axis 0 30000 ::
      ([-30000, 32000].map (JoyEvent.axis 0) ++ [JoyEvent.axis 0 0]))).1.stick
        EVENT_JOY_AXIS 0 AXIS_NEGATIVE = 8 :=
  ⟨(axis_first_armed_wins (joystickAxisEvent sampleCapture 0 30000).1 0 (by decide)).1
      (by decide) (-30000) (by decide),
    ((axis_first_armed_wins sampleCapture 0 (by decide)).2 (by decide) 30000 [-30000, 32000] 0
      (by decide) (by decide) (by decide)).2.1,
    ((axis_first_armed_wins sampleCapture 0 (by decide)).2 (by decide) 30000 [-30000, 32000] 0
      (by decide) (by decide) (by decide)).2.2.1 AXIS_NEGATIVE (by decide) (by decide)⟩

/-! ## Keyboard events with no capture active -/

/-- With no capture active, a key event with a non-escape code, down or up,
unbinds every slot below 32 that holds the code and goes on to the
notification with the mask `0`. -/
theorem keyboardEvent_idle_eq (getVKeyName : Nat → Nat → Bool → String) (c : Controller)
    (vkCode scanCode : Nat) (isExtended isDown : Bool) (h0 : c.keyToMap = 0)
    (hesc : vkCode ≠ VK_ESCAPE) :
    (∀ i, i < 32 →
      (keyboardEvent getVKeyName c vkCode scanCode isExtended isDown).1.codes i =
        if c.codes i = vkCode then 0 else c.codes i) ∧
    (keyboardEvent getVKeyName c vkCode scanCode isExtended isDown).2 = notify c.owner 0 := by
  have hg : ¬ ((!isDown) = true ∧ c.keyToMap ≠ 0) := fun hh => hh.2 h0
  unfold keyboardEvent
  rw [if_neg hg]
  simp only [ne_eq, hesc, not_false_eq_true, if_true, keyboardBindSlot_fold, h0]
  constructor
  · intro i hi
    simp [cancelMapping, hi]
  · trivial

/-- C19, the code at the failing input: on a keyboard with no capture active
(`keyToMap = 0`) whose slot 0 is bound to the code `65`, a key-down with the
code `65` unbinds slot 0, and so does a key-up; the guard of the handler
returns early only for a key-up during a capture.  When an owner is registered
with the mask `0`, a key-up also calls `doneMapping`. -/
theorem keyboardEvent_without_capture :
    idleKeyboard.keyToMap = 0 ∧ idleKeyboard.codes 0 = 65 ∧
    (keyboardEvent sampleKeyName idleKeyboard 65 0 false true).1.codes 0 = 0 ∧
    (keyboardEvent sampleKeyName idleKeyboard 65 0 false false).1.codes 0 = 0 ∧
    (startMapping idleKeyboard (some 7) 0).keyToMap = 0 ∧
    (keyboardEvent sampleKeyName (startMapping idleKeyboard (some 7) 0) 65 0 false false).2 =
      [(7, 0)] := by
  refine ⟨rfl, rfl, ?_, ?_, rfl, ?_⟩
  · rw [(keyboardEvent_idle_eq sampleKeyName idleKeyboard 65 0 false true rfl (by decide)).1 0
      (by decide)]
    rfl
  · rw [(keyboardEvent_idle_eq sampleKeyName idleKeyboard 65 0 false false rfl (by decide)).1 0
      (by decide)]
    rfl
  · rw [(keyboardEvent_idle_eq sampleKeyName (startMapping idleKeyboard (some 7) 0) 65 0 false
      false rfl (by decide)).2]
    rfl

/-! ## The joystick constructor -/

/-- C20, the code at the failing input: with GUID `5` already known (mask `3`),
the constructor returns from inside its loop: the device gets index `2` and
nothing else is written, so on zeroed members its deadzone is `0`, not
`25000`, and the positive direction of axis 0 is not mapped to `BIT_RIGHT`.
For GUID `9`, which is not known, the same call sets the deadzone `25000` and
the default mapping. -/
theorem newJoystick_shared_uninitialised :
    sampleRegistry 5 = some 3 ∧ sampleRegistry 9 = none ∧
    (∃ d, (newJoystick sampleBits sampleRegistry zeroedMembers 5).2 = Except.ok d ∧
      d.index = 2 ∧ d.deadzones 0 = 0 ∧
      d.stick EVENT_JOY_AXIS 0 AXIS_POSITIVE = 0 ∧
      d.stick EVENT_JOY_HAT 0 SDL_HAT_UP = 0) ∧
    (∃ d, (newJoystick sampleBits sampleRegistry zeroedMembers 9).2 = Except.ok d ∧
      d.index = 0 ∧ d.deadzones 0 = DEFAULT_DEADZONE ∧
      d.stick EVENT_JOY_AXIS 0 AXIS_POSITIVE = sampleBits.BIT_RIGHT ∧
      d.stick EVENT_JOY_HAT 0 SDL_HAT_UP = sampleBits.BIT_UP) ∧
    sampleBits.BIT_RIGHT ≠ 0 ∧ sampleBits.BIT_UP ≠ 0 := by
  refine ⟨rfl, rfl, ⟨{ zeroedMembers with guid := 5, index := 2 }, ?_, ?_⟩,
    ⟨initJoystick sampleBits { zeroedMembers with guid := 9, index := 0 }, ?_, ?_⟩,
    by decide, by decide⟩
  · rw [newJoystick_shared sampleBits sampleRegistry zeroedMembers 5 3 2 rfl (by decide)]
  · exact ⟨rfl, rfl, rfl, rfl⟩
  · rw [newJoystick_unknown sampleBits sampleRegistry zeroedMembers 9 rfl]
  · refine ⟨(initJoystick_guid_index sampleBits _).2, rfl, by decide, by decide⟩

/-! ## The registry invariant -/

theorem newKeyboard_guid_index (c0 : Controller) :
    (newKeyboard c0).guid = 0 ∧ (newKeyboard c0).index = 0 := by
  unfold newKeyboard
  simp [clearMapping_eq]

/-- The destructor of a joystick whose bit is registered clears that bit, keeps
every other bit below 32 and leaves the masks of the other GUIDs as they
are. -/
theorem destroy_effect (reg : Registry) (d : Controller) (m : Nat) (h : reg d.guid = some m)
    (hi : d.index < 32) :
    (∃ m', (destroy reg d) d.guid = some m' ∧ m'.testBit d.index = false ∧
      ∀ k, k < 32 → k ≠ d.index → m'.testBit k = m.testBit k) ∧
    (∀ g, g ≠ d.guid → (destroy reg d) g = reg g) := by
  rw [destroy_known reg d m h hi]
  refine ⟨⟨m &&& not32 (1 <<< d.index), by simp [Registry.set], ?_, ?_⟩, ?_⟩
  · rw [testBit_and_not32_shift]
    simp
  · intro k hk hne
    rw [testBit_and_not32_shift]
    simp [hk, Ne.symm hne]
  · intro g hg
    simp [Registry.set, hg]

/-- A successful construction keeps the registry invariant. -/
theorem registryInvariant_construct (bits : InputBits) (s : Devices) (c0 : Controller)
    (g : Nat) (d : Controller) (hinv : registryInvariant s)
    (hok : (newJoystick bits s.reg c0 g).2 = Except.ok d) :
    registryInvariant { reg := (newJoystick bits s.reg c0 g).1, joysticks := d :: s.joysticks } ∧
      d.guid = g := by
  obtain ⟨hbits, hpair⟩ := hinv
  cases h : s.reg g with
  | none =>
    rw [newJoystick_unknown bits s.reg c0 g h] at hok ⊢
    have hd : d = initJoystick bits { c0 with guid := g, index := 0 } := by
      injection hok with hok
      exact hok.symm
    have hdg : d.guid = g := by rw [hd]; exact (initJoystick_guid_index bits _).1
    have hdi : d.index = 0 := by rw [hd]; exact (initJoystick_guid_index bits _).2
    have hother : ∀ d', d' ∈ s.joysticks → d'.guid ≠ g := by
      intro d' hd' hg
      obtain ⟨_, m, hm, _⟩ := hbits d' hd'
      rw [hg, h] at hm
      cases hm
    refine ⟨⟨?_, ?_⟩, hdg⟩
    · intro d' hd'
      rcases List.mem_cons.mp hd' with rfl | hd'
      · refine ⟨by rw [hdi]; exact Nat.zero_lt_succ 31, 1, by simp [Registry.set, hdg], ?_⟩
        rw [hdi]
        decide
      · obtain ⟨h1, m, hm, hb⟩ := hbits d' hd'
        exact ⟨h1, m, by simp [Registry.set, hother d' hd', hm], hb⟩
    · rw [List.pairwise_cons]
      refine ⟨?_, hpair⟩
      intro d' hd' hg
      exact absurd (hg.symm.trans hdg) (hother d' hd')
  | some m =>
    cases hf : freeIndex m with
    | none =>
      rw [newJoystick_full bits s.reg c0 g m h hf] at hok
      cases hok
    | some i =>
      rw [newJoystick_shared bits s.reg c0 g m i h hf] at hok ⊢
      have hd : d = { c0 with guid := g, index := i } := by
        injection hok with hok
        exact hok.symm
      have hdg : d.guid = g := by rw [hd]
      have hdi : d.index = i := by rw [hd]
      obtain ⟨hi32, hclear, _⟩ := (freeIndex_eq_some m i).mp hf
      refine ⟨⟨?_, ?_⟩, hdg⟩
      · intro d' hd'
        rcases List.mem_cons.mp hd' with rfl | hd'
        · refine ⟨by rw [hdi]; exact hi32, m ||| 1 <<< i, by simp [Registry.set, hdg], ?_⟩
          rw [hdi, testBit_or_one_shiftLeft]
          simp
        · obtain ⟨h1, m', hm', hb⟩ := hbits d' hd'
          by_cases hg : d'.guid = g
          · rw [hg, h] at hm'
            cases hm'
            refine ⟨h1, m ||| 1 <<< i, by simp [Registry.set, hg], ?_⟩
            rw [testBit_or_one_shiftLeft, hb]
            rfl
          · exact ⟨h1, m', by simp [Registry.set, hg, hm'], hb⟩
      · rw [List.pairwise_cons]
        refine ⟨?_, hpair⟩
        intro d' hd' hg hidx
        obtain ⟨_, m', hm', hb⟩ := hbits d' hd'
        rw [← hg, hdg, h] at hm'
        cases hm'
        rw [← hidx, hdi, hclear] at hb
        cases hb

/-- The destruction of a live joystick keeps the registry invariant. -/
theorem registryInvariant_destroyJoystick (s : Devices) (l1 : List Controller) (d : Controller)
    (l2 : List Controller) (hinv : registryInvariant s) (hl : s.joysticks = l1 ++ d :: l2) :
    registryInvariant { reg := destroy s.reg d, joysticks := l1 ++ l2 } := by
  obtain ⟨hbits, hpair⟩ := hinv
  rw [hl] at hbits hpair
  obtain ⟨hdi, m, hm, _⟩ := hbits d (by simp)
  have hne : ∀ d', d' ∈ l1 ++ l2 → d'.guid = d.guid → d'.index ≠ d.index := by
    intro d' hd' hg
    rw [List.pairwise_append] at hpair
    obtain ⟨_, hp2, hp12⟩ := hpair
    rcases List.mem_append.mp hd' with h1 | h2
    · exact hp12 d' h1 d (List.mem_cons_self d l2) hg
    · rw [List.pairwise_cons] at hp2
      exact fun hidx => hp2.1 d' h2 hg.symm hidx.symm
  constructor
  · intro d' hd'
    have hmem : d' ∈ l1 ++ d :: l2 := by
      rcases List.mem_append.mp hd' with h1 | h2
      · exact List.mem_append_left _ h1
      · exact List.mem_append_right _ (List.mem_cons_of_mem d h2)
    obtain ⟨h1, m', hm', hb⟩ := hbits d' hmem
    refine ⟨h1, ?_⟩
    by_cases hg : d'.guid = d.guid
    · obtain ⟨⟨m2, hm2, _, hkeep⟩, _⟩ := destroy_effect s.reg d m hm hdi
      rw [hg, hm] at hm'
      cases hm'
      exact ⟨m2, by rw [hg]; exact hm2, by rw [hkeep d'.index h1 (hne d' hd' hg)]; exact hb⟩
    · exact ⟨m', ((destroy_effect s.reg d m hm hdi).2 d'.guid hg).trans hm', hb⟩
  · exact hpair.sublist (List.append_sublist_append_left l1 |>.mpr (List.sublist_cons_self d l2))

/-- The destruction of a keyboard keeps the registry invariant when no live
joystick has the zeroed GUID of the keyboard. -/
theorem registryInvariant_destroyKeyboard (s : Devices) (c0 : Controller)
    (hinv : registryInvariant s) (hz : ∀ d, d ∈ s.joysticks → d.guid ≠ 0) :
    registryInvariant { reg := destroy s.reg (newKeyboard c0), joysticks := s.joysticks } := by
  obtain ⟨hbits, hpair⟩ := hinv
  obtain ⟨kg, ki⟩ := newKeyboard_guid_index c0
  have hreg : ∀ g, g ≠ 0 → (destroy s.reg (newKeyboard c0)) g = s.reg g := by
    intro g hg
    cases h : s.reg 0 with
    | none =>
      unfold destroy
      rw [kg, h]
    | some m =>
      rw [destroy_known s.reg (newKeyboard c0) m (by rw [kg]; exact h)
        (by rw [ki]; exact Nat.zero_lt_succ 31), kg]
      simp [Registry.set, hg]
  refine ⟨?_, hpair⟩
  intro d hd
  obtain ⟨h1, m, hm, hb⟩ := hbits d hd
  exact ⟨h1, m, (hreg d.guid (hz d hd)).trans hm, hb⟩

/-- When joysticks never report the zeroed GUID of the keyboard, the registry
invariant holds in every state reached by constructing and destroying
devices. -/
theorem registryInvariant_reachable (bits : InputBits) (allowed : Nat → Prop)
    (h0 : ¬ allowed 0) (s : Devices) (hs : Reachable bits allowed s) :
    registryInvariant s ∧ ∀ d, d ∈ s.joysticks → allowed d.guid := by
  induction hs with
  | start =>
    refine ⟨⟨?_, List.Pairwise.nil⟩, ?_⟩
    · intro d hd
      cases hd
    · intro d hd
      cases hd
  | step s t _ hstep ih =>
    obtain ⟨hinv, hall⟩ := ih
    cases hstep with
    | construct c0 g d hg hok =>
      obtain ⟨h1, h2⟩ := registryInvariant_construct bits s c0 g d hinv hok
      refine ⟨h1, ?_⟩
      intro d' hd'
      rcases List.mem_cons.mp hd' with rfl | hd'
      · rw [h2]
        exact hg
      · exact hall d' hd'
    | destroyJoystick l1 d l2 hl =>
      refine ⟨registryInvariant_destroyJoystick s l1 d l2 hinv hl, ?_⟩
      intro d' hd'
      apply hall
      rw [hl]
      rcases List.mem_append.mp hd' with h1 | h2
      · exact List.mem_append_left _ h1
      · exact List.mem_append_right _ (List.mem_cons_of_mem d h2)
    | destroyKeyboard c0 =>
      refine ⟨registryInvariant_destroyKeyboard s c0 hinv ?_, hall⟩
      intro d hd hg
      exact h0 (hg ▸ hall d hd)

/-- C21, the code at the failing input: a joystick that reports the all-zero
GUID is constructed (index `0`, mask `1`), then a keyboard, whose GUID and index
were zeroed by its constructor, is destroyed.  The destructor finds the entry
of the joystick and clears bit `0`: the mask becomes `0` while the joystick is
alive, so the registry invariant fails in a reachable state, and the next
joystick of that GUID is given index `0` as well. -/
theorem keyboard_destructor_clears_joystick_bit :
    Reachable sampleBits (fun _ => True) afterKeyboardGone ∧
    afterKeyboardGone.joysticks = [zeroGuidPad] ∧
    zeroGuidPad.guid = 0 ∧ zeroGuidPad.index = 0 ∧
    (newJoystick sampleBits (fun _ => none) zeroedMembers 0).1 0 = some 1 ∧
    afterKeyboardGone.reg 0 = some 0 ∧
    ¬ registryInvariant afterKeyboardGone ∧
    (∃ d, (newJoystick sampleBits afterKeyboardGone.reg zeroedMembers 0).2 = Except.ok d ∧
      d.guid = zeroGuidPad.guid ∧ d.index = zeroGuidPad.index) := by
  obtain ⟨kg, ki⟩ := newKeyboard_guid_index zeroedMembers
  have pg : zeroGuidPad.guid = 0 :=
    (initJoystick_guid_index sampleBits { zeroedMembers with guid := 0, index := 0 }).1
  have pi : zeroGuidPad.index = 0 :=
    (initJoystick_guid_index sampleBits { zeroedMembers with guid := 0, index := 0 }).2
  have hreg : afterKeyboardGone.reg 0 = some 0 := by
    show destroy (Registry.set (fun _ => none) 0 1) (newKeyboard zeroedMembers) 0 = some 0
    rw [destroy_known (Registry.set (fun _ => none) 0 1) (newKeyboard zeroedMembers) 1
      (by rw [kg]; rfl) (by rw [ki]; exact Nat.zero_lt_succ 31), kg, ki]
    decide
  refine ⟨?_, rfl, pg, pi, rfl, hreg, ?_, ?_⟩
  · have h1 : Reachable sampleBits (fun _ => True)
        { reg := (newJoystick sampleBits ({} : Devices).reg zeroedMembers 0).1,
          joysticks := zeroGuidPad :: ({} : Devices).joysticks } :=
      Reachable.step _ _ Reachable.start
        (Step.construct ({} : Devices) zeroedMembers 0 zeroGuidPad trivial rfl)
    exact Reachable.step _ _ h1 (Step.destroyKeyboard _ zeroedMembers)
  · intro hinv
    obtain ⟨_, m, hm, hb⟩ := hinv.1 zeroGuidPad (List.mem_cons_self _ _)
    rw [pg, hreg] at hm
    cases hm
    rw [pi] at hb
    cases hb
  · refine ⟨{ zeroedMembers with guid := 0, index := 0 }, ?_, pg.symm, pi.symm⟩
    rw [newJoystick_shared sampleBits afterKeyboardGone.reg zeroedMembers 0 0 0 hreg (by decide)]

/-! ## `trim` -/

theorem find_first_not_of_eq_none (s ws : List Char) :
    find_first_not_of s ws = none ↔ ∀ c, c ∈ s → c ∈ ws := by
  induction s with
  | nil => simp [find_first_not_of]
  | cons a s ih =>
    unfold find_first_not_of
    by_cases ha : a ∈ ws
    · simp [ha, ih]
    · simp [ha]

theorem find_last_not_of_eq_none (s ws : List Char) :
    find_last_not_of s ws = none ↔ ∀ c, c ∈ s → c ∈ ws := by
  induction s with
  | nil => simp [find_last_not_of]
  | cons a s ih =>
    unfold find_last_not_of
    cases h : find_last_not_of s ws with
    | some i =>
      have : ¬ ∀ c, c ∈ s → c ∈ ws := fun hall => by
        rw [ih.mpr hall] at h
        cases h
      simp only [reduceCtorEq, false_iff]
      intro hall
      exact this (fun c hc => hall c (List.mem_cons_of_mem a hc))
    | none =>
      have hs := ih.mp h
      by_cases ha : a ∈ ws
      · simp only [ha, if_true, List.mem_cons, forall_eq_or_imp, true_and, true_iff]
        exact hs
      · simp [ha]

/-- The character at the index found by `find_first_not_of` is not in `ws`. -/
theorem find_first_not_of_eq_some (s ws : List Char) :
    ∀ i, find_first_not_of s ws = some i →
      ∃ c rest, s.drop i = c :: rest ∧ c ∉ ws := by
  induction s with
  | nil =>
    intro i h
    simp [find_first_not_of] at h
  | cons a s ih =>
    intro i h
    unfold find_first_not_of at h
    by_cases ha : a ∈ ws
    · rw [if_pos ha] at h
      cases h' : find_first_not_of s ws with
      | none =>
        rw [h'] at h
        cases h
      | some j =>
        rw [h'] at h
        simp only [Option.map_some', Option.some.injEq] at h
        subst h
        exact ih j h'
    · rw [if_neg ha] at h
      cases h
      exact ⟨a, s, rfl, ha⟩

/-- The string up to the index found by `find_last_not_of` ends with a character
that is not in `ws`. -/
theorem find_last_not_of_eq_some (s ws : List Char) :
    ∀ i, find_last_not_of s ws = some i →
      ∃ pre c, s.take (i + 1) = pre ++ [c] ∧ c ∉ ws := by
  induction s with
  | nil =>
    intro i h
    simp [find_last_not_of] at h
  | cons a s ih =>
    intro i h
    unfold find_last_not_of at h
    cases h' : find_last_not_of s ws with
    | some j =>
      rw [h'] at h
      simp only [Option.some.injEq] at h
      subst h
      obtain ⟨pre, c, hp, hc⟩ := ih j h'
      exact ⟨a :: pre, c, by rw [List.take_succ_cons, hp]; rfl, hc⟩
    | none =>
      rw [h'] at h
      by_cases ha : a ∈ ws
      · simp [ha] at h
      · simp only [ha, if_false, Option.some.injEq] at h
        subst h
        exact ⟨[], a, by simp, ha⟩

/-- On a string that ends with a character not in `ws`, `find_last_not_of`
finds the last index. -/
theorem find_last_not_of_concat (pre : List Char) (c : Char) (ws : List Char) (hc : c ∉ ws) :
    find_last_not_of (pre ++ [c]) ws = some pre.length := by
  induction pre with
  | nil => simp [find_last_not_of, hc]
  | cons a pre ih =>
    rw [List.cons_append]
    unfold find_last_not_of
    rw [ih]
    rfl

/-- A string made of characters of `ws` only is returned as it is: both searches
give `npos` and no `substr` is taken. -/
theorem trim_all_ws (str ws : List Char) (h : ∀ c, c ∈ str → c ∈ ws) : trim str ws = str := by
  have h1 := (find_last_not_of_eq_none str ws).mpr h
  have h2 := (find_first_not_of_eq_none str ws).mpr h
  simp only [trim, h1, h2]

/-- A string with a character that is not in `ws` is trimmed on both sides: the
result is a contiguous part of the string that begins and ends with characters
not in `ws`. -/
theorem trim_some (str ws : List Char) (h : ∃ c, c ∈ str ∧ c ∉ ws) :
    trim str ws <:+: str ∧
    (∃ a rest, trim str ws = a :: rest ∧ a ∉ ws) ∧
    (∃ pre b, trim str ws = pre ++ [b] ∧ b ∉ ws) := by
  obtain ⟨c0, hc0, hc0ws⟩ := h
  cases he : find_last_not_of str ws with
  | none => exact absurd ((find_last_not_of_eq_none str ws).mp he c0 hc0) hc0ws
  | some e =>
    obtain ⟨pre, c, hp, hc⟩ := find_last_not_of_eq_some str ws e he
    cases hb : find_first_not_of (str.take (e + 1)) ws with
    | none =>
      have := (find_first_not_of_eq_none _ ws).mp hb c (by rw [hp]; simp)
      exact absurd this hc
    | some b =>
      obtain ⟨a, rest, hd, ha⟩ := find_first_not_of_eq_some _ ws b hb
      have ht : trim str ws = (str.take (e + 1)).drop b := by
        simp only [trim, he, substr, List.drop_zero, hb, substrFrom]
      have hble : b ≤ pre.length := by
        by_contra hgt
        have hlen : (str.take (e + 1)).length ≤ b := by
          rw [hp, List.length_append, List.length_singleton]
          omega
        rw [List.drop_of_length_le hlen] at hd
        cases hd
      refine ⟨?_, ⟨a, rest, by rw [ht, hd], ha⟩, ⟨pre.drop b, c, ?_, hc⟩⟩
      · rw [ht]
        exact (List.drop_suffix b _).isInfix.trans (List.take_prefix (e + 1) str).isInfix
      · rw [ht, hp, List.drop_append_of_le_length hble]

/-- A string that begins and ends with characters not in `ws` is returned as it
is. -/
theorem trim_fixed (r ws : List Char) (hfirst : ∃ a rest, r = a :: rest ∧ a ∉ ws)
    (hlast : ∃ pre b, r = pre ++ [b] ∧ b ∉ ws) : trim r ws = r := by
  obtain ⟨a, rest, ha, haws⟩ := hfirst
  obtain ⟨pre, b, hb, hbws⟩ := hlast
  have hl : find_last_not_of r ws = some pre.length := by
    rw [hb]
    exact find_last_not_of_concat pre b ws hbws
  have htake : r.take (pre.length + 1) = r := by
    rw [hb]
    exact List.take_of_length_le (by simp)
  have hf : find_first_not_of r ws = some 0 := by
    rw [ha]
    simp [find_first_not_of, haws]
  simp only [trim, hl, substr, List.drop_zero, htake, hf, substrFrom]

/-- The result of `trim` is a contiguous part of the string, and trimming it
again changes nothing. -/
theorem trim_infix_idempotent (str ws : List Char) :
    trim str ws <:+: str ∧ trim (trim str ws) ws = trim str ws := by
  by_cases h : ∃ c, c ∈ str ∧ c ∉ ws
  · obtain ⟨h1, h2, h3⟩ := trim_some str ws h
    exact ⟨h1, trim_fixed (trim str ws) ws h2 h3⟩
  · have hall : ∀ c, c ∈ str → c ∈ ws := by
      intro c hc
      by_contra hne
      exact h ⟨c, hc, hne⟩
    rw [trim_all_ws str ws hall]
    exact ⟨List.infix_refl str, trim_all_ws str ws hall⟩

/-- C22, the code at the failing input: `trim` of a string of two spaces, with
the space as the only character of `ws`, is the two spaces again: it begins and
ends with a character of `ws` and is not empty. -/
theorem trim_only_spaces :
    trim [' ', ' '] [' '] = [' ', ' '] ∧
    (trim [' ', ' '] [' ']).head? = some ' ' ∧
    (trim [' ', ' '] [' ']).getLast? = some ' ' ∧
    trim [' ', ' '] [' '] ≠ [] ∧
    trim ['a', ' '] [' '] = ['a'] := by
  decide

end CCCaster
